import Mathlib

/-!
Verification development for the DependencyHealthChecker repository.

The repository's core (src/analyzers/outdated.js, src/index.js,
src/scanners/npm.js, src/scanners/python.js) is shallowly embedded below.
JavaScript strings are modelled as Lean `String`s, with the JS string
operations (`trim`, `startsWith`, `includes`, `split`) re-implemented over
the underlying `List Char` so that they are executable and amenable to
proof.  I/O-performing collaborators (the registry lookup, the local
install-tree lookup, `npm audit`, the HTTP vulnerability feed, `JSON.parse`)
are passed in as explicit function parameters; JavaScript exceptions are
modelled with `Except`.
-/

namespace DepCheck

/-- JavaScript whitespace characters recognised by `String.prototype.trim`
(restricted to the ASCII range, which is all the repository ever feeds it). -/
def isJsWs (ch : Char) : Bool :=
  ch = ' ' || ch = '\t' || ch = '\n' || ch = '\r' || ch = '\x0b' || ch = '\x0c'

/-- Model of JavaScript `s.trim()`. -/
def jsTrim (s : String) : String :=
  String.mk (((s.data.dropWhile isJsWs).reverse.dropWhile isJsWs).reverse)

/-- Model of JavaScript `s.startsWith(pre)`. -/
def jsStartsWith (s pre : String) : Bool :=
  pre.data.isPrefixOf s.data

/-- Scanner underlying JS `String.prototype.split` for a non-empty
separator: walk the characters, emitting the accumulated (reversed) chunk
at each separator occurrence; `skip` counts separator characters still to
be consumed after a match. -/
def splitOnGo (sep : List Char) (skip : Nat) (acc : List Char) :
    List Char → List (List Char)
  | [] => [acc.reverse]
  | x :: xs =>
    match skip with
    | Nat.succ k => splitOnGo sep k acc xs
    | 0 =>
      if sep.isPrefixOf (x :: xs) then
        acc.reverse :: splitOnGo sep (sep.length - 1) [] xs
      else
        splitOnGo sep 0 (x :: acc) xs

/-- JS split on the non-empty separator `sepHead :: sepTail`. -/
def splitOnNE (sepHead : Char) (sepTail : List Char) (l : List Char) :
    List (List Char) :=
  splitOnGo (sepHead :: sepTail) 0 [] l

/-- Model of JavaScript `s.split(sep)` (the repository only splits on
non-empty separators; an empty separator returns the string whole here). -/
def jsSplit (s sep : String) : List String :=
  match sep.data with
  | [] => [s]
  | c :: cs => (splitOnNE c cs s.data).map String.mk

/-- Model of JavaScript `s.includes(pat)`. -/
def jsIncludes (s pat : String) : Bool :=
  match pat.data with
  | [] => true
  | c :: cs => (splitOnNE c cs s.data).length > 1

/-- JS truthiness of a string value: only the empty string is falsy. -/
def jsTruthy (s : String) : Bool := s ≠ ""

/-- Model of JavaScript `s.toLowerCase()` (ASCII, character-wise). -/
def jsToLowerCase (s : String) : String :=
  String.mk (s.data.map Char.toLower)

/-! ## Model of the `semver` npm library (the parts `outdated.js` uses)

`semver.valid`/`semver.parse` match a trimmed version string against the
anchored FULL regex
`^v?NUM\.NUM\.NUM(-PREREL(\.PREREL)*)?(\+BUILD(\.BUILD)*)?$` where
`NUM = 0|[1-9]\d*`, `PREREL` is a numeric identifier without leading zeros
or an alphanumeric-and-hyphen identifier containing a non-digit, and
`BUILD` is a non-empty run of `[0-9A-Za-z-]`; strings longer than 256
characters are rejected. -/

structure SemVer where
  major : Nat
  minor : Nat
  patch : Nat
  prerelease : List (List Char)
  build : List (List Char)
  deriving Repr, DecidableEq

/-- Character set of semver prerelease/build identifiers: `[0-9A-Za-z-]`. -/
def semverIdChar (c : Char) : Bool :=
  c.isDigit || c.isAlpha || c = '-'

/-- Digits to a natural number (most significant first). -/
def digitsToNat (ds : List Char) : Nat :=
  ds.foldl (fun acc c => acc * 10 + (c.toNat - 48)) 0

/-- Parse one semver numeric identifier (`0|[1-9]\d*`) off the front. -/
def parseNumId (l : List Char) : Option (Nat × List Char) :=
  match l.span Char.isDigit with
  | ([], _) => none
  | (d :: ds, rest) =>
    if d = '0' && ds ≠ [] then none
    else some (digitsToNat (d :: ds), rest)

/-- A valid prerelease identifier: non-empty, made of `[0-9A-Za-z-]`, and
if all-numeric then without leading zeros. -/
def preIdValid (id : List Char) : Bool :=
  id ≠ [] && id.all semverIdChar &&
    (if id.all Char.isDigit then
      match id with
      | [] => false
      | d :: ds => !(d = '0' && ds ≠ [])
    else true)

/-- A valid build identifier: non-empty, made of `[0-9A-Za-z-]`. -/
def buildIdValid (id : List Char) : Bool :=
  id ≠ [] && id.all semverIdChar

/-- Parse the `+BUILD(.BUILD)*` part (the chars after the `+`). -/
def parseBuild (l : List Char) : Option (List (List Char)) :=
  let ids := splitOnNE '.' [] l
  if ids.all buildIdValid then some ids else none

/-- Parse the optional `-prerelease` / `+build` tail of a semver string. -/
def parseTail (l : List Char) : Option (List (List Char) × List (List Char)) :=
  match l with
  | [] => some ([], [])
  | '-' :: rest =>
    let spanned := rest.span (fun c => c ≠ '+')
    let ids := splitOnNE '.' [] spanned.1
    if ids.all preIdValid then
      match spanned.2 with
      | [] => some (ids, [])
      | '+' :: b =>
        match parseBuild b with
        | some bs => some (ids, bs)
        | none => none
      | _ => none
    else none
  | '+' :: rest =>
    match parseBuild rest with
    | some bs => some ([], bs)
    | none => none
  | _ => none

/-- Parse a full (already trimmed) semver string: optional leading `v`,
then `major.minor.patch`, then the optional tail. -/
def parseSemVerChars (l0 : List Char) : Option SemVer :=
  let l := match l0 with | 'v' :: rest => rest | _ => l0
  match parseNumId l with
  | none => none
  | some (maj, r1) =>
    match r1 with
    | '.' :: r2 =>
      match parseNumId r2 with
      | none => none
      | some (mino, r3) =>
        match r3 with
        | '.' :: r4 =>
          match parseNumId r4 with
          | none => none
          | some (pat, r5) =>
            match parseTail r5 with
            | none => none
            | some (pre, bld) =>
              some ⟨maj, mino, pat, pre, bld⟩
        | _ => none
    | _ => none

/-- Model of `semver.valid`/`semver.parse`: `some` of the parsed version
when the string is a well-formed semantic version, else `none`. -/
def semverValid (s : String) : Option SemVer :=
  if s.length > 256 then none
  else parseSemVerChars (jsTrim s).data

/-! ## Data model shared by the analyzer and the scanners -/

/-- The `type` field of a dependency record (`'production'`/`'development'`). -/
inductive DepKind where
  | production
  | development
  deriving Repr, DecidableEq

/-- A dependency record as produced by `NpmScanner.scan`/`PythonScanner.scan`:
`{ name, version, type, installed }` (the python scanner also carries a
`specifiedVersion` field, which nothing downstream reads and which is
therefore omitted). -/
structure Dep where
  name : String
  version : String
  installed : Option String
  type_ : DepKind
  deriving Repr, DecidableEq

/-- The `updateType` values produced by `getUpdateType`. -/
inductive UpdateType where
  | none
  | patch
  | minor
  | major
  | unknown
  deriving Repr, DecidableEq

/-- An entry of the `outdated` array pushed by `check` in
`src/analyzers/outdated.js`. -/
structure Candidate where
  name : String
  current : String
  wanted : String
  latest : String
  type_ : DepKind
  updateType : UpdateType
  safe : Bool
  breaking : Bool
  deriving Repr, DecidableEq

/-- A JavaScript exception value, as far as the embedded code inspects it:
a message plus the `stdout` property that `child_process` errors carry. -/
structure JsError where
  message : String
  stdout : Option String
  deriving Repr, DecidableEq

/-! ## `src/analyzers/outdated.js` -/

/-- `parseVersion` of `outdated.js`: strip a leading run of `[\^~>=<]`
characters and keep the result when it is a valid semver. -/
def parseVersion (versionString : String) : Option String :=
  if versionString = "" then none
  else
    let cleanVersion := String.mk (versionString.data.dropWhile
      (fun c => c = '^' || c = '~' || c = '>' || c = '=' || c = '<'))
    if (semverValid cleanVersion).isSome then some cleanVersion else none

/-- `getUpdateType` of `outdated.js`: `unknown` unless both versions are
valid semver, else the first of major/minor/patch whose component strictly
increased, else `none`. -/
def getUpdateType (current latest : String) : UpdateType :=
  match semverValid current, semverValid latest with
  | some c, some l =>
    if l.major > c.major then .major
    else if l.minor > c.minor then .minor
    else if l.patch > c.patch then .patch
    else .none
  | _, _ => .unknown

/-- JS `a || b` for `dep.installed || parseVersion(dep.version)`:
the left operand wins when it is a truthy (non-empty) string. -/
def jsOrStr (a : Option String) (b : Option String) : Option String :=
  match a with
  | some s => if jsTruthy s then some s else b
  | none => b

/-- The body of `check`'s per-dependency loop iteration: the `try` block
produces at most one candidate, and a thrown registry lookup is swallowed
by the `catch` (which only logs). -/
def checkOne (getLatestVersion : String → Except JsError String) (dep : Dep) :
    Option Candidate :=
  match getLatestVersion dep.name with
  | .error _ => none
  | .ok latestVersion =>
    match jsOrStr dep.installed (parseVersion dep.version) with
    | none => none
    | some currentVersion =>
      if jsTruthy currentVersion && jsTruthy latestVersion &&
          currentVersion ≠ latestVersion then
        let updateType := getUpdateType currentVersion latestVersion
        some { name := dep.name
               current := currentVersion
               wanted := dep.version
               latest := latestVersion
               type_ := dep.type_
               updateType := updateType
               safe := updateType ≠ .major
               breaking := updateType = .major }
      else none

/-- `check` of `outdated.js` (the spinner and verbose logging are pure
I/O and are not modelled): iterate over the dependencies, collecting the
candidates the loop pushes. -/
def check (dependencies : List Dep) (getLatestVersion : String → Except JsError String) :
    List Candidate :=
  dependencies.filterMap (checkOne getLatestVersion)

/-! ## `src/index.js` -/

/-- `DependencyChecker.applyFixes`: filter to `pkg.safe && !pkg.breaking`;
`none` models the "No safe updates to apply." early return (no manifest
write), `some l` models delegating the list `l` to `scanner.applyUpdates`. -/
def applyFixes (outdated : List Candidate) : Option (List Candidate) :=
  let safeUpdates := outdated.filter (fun pkg => pkg.safe && !pkg.breaking)
  if safeUpdates.length = 0 then none
  else some safeUpdates

/-! ## Options read by the scanners -/

/-- The option fields the two scanners consult (`--dev`, `--production`,
`--ignore`); `ignore` is the raw comma-separated CLI string, absent when
the flag was not given. -/
structure ScanOptions where
  dev : Bool
  production : Bool
  ignore : Option String
  deriving Repr, DecidableEq

/-- `shouldIgnore` (identical in both scanners): split the ignore option
on commas, trim each entry, and test membership. -/
def shouldIgnore (ignoreOpt : Option String) (packageName : String) : Bool :=
  match ignoreOpt with
  | none => false
  | some ig =>
    if jsTruthy ig then ((jsSplit ig ",").map jsTrim).contains packageName
    else false

/-- A JavaScript value as far as a finding's `severity` field can hold
one: either a string, or the inherited `Object.prototype` member named
`name` that a plain-object lookup returns when the key is not an own key
of the object literal (a function, or for `__proto__` an object — always
truthy, never equal to any string). -/
inductive JsValue where
  | str (s : String)
  | protoMember (name : String)
  deriving Repr, DecidableEq

/-- The own property names of `Object.prototype` (V8/Node), which a plain
JavaScript object lookup `obj[key]` consults — case-sensitively — after
the literal's own keys; every one of these members is truthy. -/
def objectProtoProps : List String :=
  ["constructor", "__defineGetter__", "__defineSetter__", "hasOwnProperty",
   "__lookupGetter__", "__lookupSetter__", "isPrototypeOf",
   "propertyIsEnumerable", "toString", "valueOf", "__proto__",
   "toLocaleString"]

/-- A vulnerability finding as pushed by either scanner (only the fields
the claims inspect; the remaining fields are carried as raw strings).
The npm scanner always stores a string severity; the python scanner
stores whatever `mapSeverity` returned, which for labels colliding with
`Object.prototype` keys is a non-string inherited member. -/
structure Finding where
  package : String
  severity : JsValue
  title : String
  deriving Repr, DecidableEq

namespace Npm

/-- `NpmScanner.getVersionPrefix`: probe the six recognised constraint
operators in source order, longest form first within each pair. -/
def getVersionPrefix (versionString : String) : String :=
  if jsStartsWith versionString "^" then "^"
  else if jsStartsWith versionString "~" then "~"
  else if jsStartsWith versionString ">=" then ">="
  else if jsStartsWith versionString ">" then ">"
  else if jsStartsWith versionString "<=" then "<="
  else if jsStartsWith versionString "<" then "<"
  else ""

/-- `NpmScanner.scan` (`package.json` already parsed; the `node_modules`
lookup `getInstalledVersion` is the I/O parameter `installedOf`):
the `dependencies` section is walked unless `options.dev` is set, then the
`devDependencies` section unless `options.production` is set, skipping
ignored names. -/
def scan (options : ScanOptions)
    (dependencies devDependencies : Option (List (String × String)))
    (installedOf : String → Option String) : List Dep :=
  (match dependencies with
   | some deps =>
     if options.dev then []
     else deps.filterMap (fun nv =>
       if shouldIgnore options.ignore nv.1 then none
       else some ⟨nv.1, nv.2, installedOf nv.1, .production⟩)
   | none => []) ++
  (match devDependencies with
   | some deps =>
     if options.production then []
     else deps.filterMap (fun nv =>
       if shouldIgnore options.ignore nv.1 then none
       else some ⟨nv.1, nv.2, installedOf nv.1, .development⟩)
   | none => [])

/-- One element of a `via` array in `npm audit --json` output: either a
bare advisory-id string or an advisory object (of which the code reads
`title` and `url`; `title` may be absent). -/
inductive ViaEntry where
  | str (s : String)
  | adv (title : Option String) (url : String)
  deriving Repr, DecidableEq

/-- One value of the `vulnerabilities` object in `npm audit --json`
output, as far as `parseAuditResults` reads it. -/
structure VulnInfo where
  severity : String
  via : Option (List ViaEntry)
  range : String
  fixAvailable : Bool
  deriving Repr, DecidableEq

/-- The parsed `npm audit --json` document: its `vulnerabilities` object
as an entry list (absent when the key is missing). -/
structure AuditData where
  vulnerabilities : Option (List (String × VulnInfo))
  deriving Repr, DecidableEq

/-- `NpmScanner.parseAuditResults`: for every package entry whose `via`
is an array, push one finding per advisory object with a truthy `title`,
copying `vulnInfo.severity` through verbatim. -/
def parseAuditResults (auditData : AuditData) : List Finding :=
  match auditData.vulnerabilities with
  | none => []
  | some entries =>
    entries.flatMap (fun pv =>
      match pv.2.via with
      | none => []
      | some vias =>
        vias.filterMap (fun v =>
          match v with
          | .str _ => Option.none
          | .adv title _ =>
            match title with
            | some t =>
              if jsTruthy t then
                some { package := pv.1, severity := JsValue.str pv.2.severity,
                       title := t }
              else Option.none
            | none => Option.none))

/-- JS `try { body } catch (e) { handler e }`. -/
def jsTry {α : Type} (body : Except JsError α) (handler : JsError → Except JsError α) :
    Except JsError α :=
  match body with
  | .ok a => .ok a
  | .error e => handler e

/-- `NpmScanner.getVulnerabilities`: run `npm audit --json` (the I/O
parameter `execAudit`), `JSON.parse` its stdout (the parameter
`parseJson`, whose failures carry no `stdout` property) and collect the
findings; on a thrown error with captured stdout, retry the parse on that
stdout and fall back to `[]` on any further failure. -/
def getVulnerabilities (execAudit : Except JsError String)
    (parseJson : String → Except JsError AuditData) :
    Except JsError (List Finding) :=
  jsTry
    (match execAudit with
     | .error e => .error e
     | .ok stdout =>
       match parseJson stdout with
       | .error e => .error e
       | .ok auditData => .ok (parseAuditResults auditData))
    (fun error =>
      match error.stdout with
      | some out =>
        jsTry
          (match parseJson out with
           | .error e => .error e
           | .ok auditData => .ok (parseAuditResults auditData))
          (fun _ => .ok [])
      | none => .ok [])

/-- The parsed `package.json` object as `applyUpdates` touches it: the two
dependency sections (absent when the key is missing) plus every other
top-level field, which the function never reads or writes. -/
structure PackageJson where
  dependencies : Option (List (String × String))
  devDependencies : Option (List (String × String))
  otherFields : List (String × String)
  deriving Repr, DecidableEq

/-- JS `obj[name] = v` on a dependency section whose key `name` exists:
replace the value in place, keeping key order. -/
def setConstraint (sec : List (String × String)) (nm newVal : String) :
    List (String × String) :=
  sec.map (fun p => if p.1 = nm then (p.1, newVal) else p)

/-- One iteration of `NpmScanner.applyUpdates`'s loop: select the section
by `update.type`, and when the section exists and holds a truthy entry for
`update.name`, overwrite it with the preserved prefix plus
`update.latest`. -/
def applyUpdate1 (packageJson : PackageJson) (update : Candidate) : PackageJson :=
  let isProd := update.type_ = DepKind.production
  match (if isProd then packageJson.dependencies else packageJson.devDependencies) with
  | none => packageJson
  | some sec =>
    match sec.lookup update.name with
    | none => packageJson
    | some existing =>
      if jsTruthy existing then
        let versionPfx := getVersionPrefix existing
        let newSec := setConstraint sec update.name (versionPfx ++ update.latest)
        if isProd then { packageJson with dependencies := some newSec }
        else { packageJson with devDependencies := some newSec }
      else packageJson

/-- `NpmScanner.applyUpdates` (the surrounding file read/write is I/O):
fold the per-update mutation over the updates list. -/
def applyUpdates (updates : List Candidate) (packageJson : PackageJson) : PackageJson :=
  updates.foldl applyUpdate1 packageJson

end Npm

namespace Python

/-- The operator list of `PythonScanner` (`parseDependency`,
`extractOperator`), in source order. -/
def operators : List String := [">=", "<=", "==", "!=", "~=", ">", "<"]

/-- The record returned by `PythonScanner.parseDependency`. -/
structure PyDep where
  name : String
  version : String
  specifiedVersion : Option String
  deriving Repr, DecidableEq

/-- `PythonScanner.parseDependency`: find the first listed operator that
occurs anywhere in the line, split on it and take the first two parts;
a line containing no operator is a bare name with version `*`. -/
def parseDependency (line : String) : PyDep :=
  match operators.find? (fun op => jsIncludes line op) with
  | some op =>
    let parts := jsSplit line op
    let nm := jsTrim (parts.headD "")
    let ver := jsTrim ((parts.drop 1).headD "")
    { name := nm, version := op ++ ver, specifiedVersion := some ver }
  | none =>
    { name := jsTrim line, version := "*", specifiedVersion := Option.none }

/-- `PythonScanner.scan` (`requirements.txt` content already read):
split into lines, skip blank and `#`-comment lines, parse each remaining
line and keep it unless ignored; every entry is `production`.  The
`--dev`/`--production` options are never consulted. -/
def scan (options : ScanOptions) (content : String) : List Dep :=
  (jsSplit content "\n").filterMap (fun line =>
    let trimmed := jsTrim line
    if !jsTruthy trimmed || jsStartsWith trimmed "#" then Option.none
    else
      let dependency := parseDependency trimmed
      if shouldIgnore options.ignore dependency.name then Option.none
      else some ⟨dependency.name, dependency.version, Option.none, .production⟩)

/-- `PythonScanner.mapSeverity`: lower-case the upstream label and look
it up in the `severityMap` object literal.  A plain-object lookup falls
through to the prototype chain, so a key that is not one of the five own
keys but is an own property name of `Object.prototype` yields that
inherited member — which is truthy, so `|| 'moderate'` returns it
verbatim; only a key found nowhere (undefined, falsy) defaults to
`moderate`. -/
def mapSeverity (severity : String) : JsValue :=
  let s := jsToLowerCase severity
  if s = "critical" then .str "critical"
  else if s = "high" then .str "high"
  else if s = "medium" then .str "moderate"
  else if s = "moderate" then .str "moderate"
  else if s = "low" then .str "low"
  else if s ∈ objectProtoProps then .protoMember s
  else .str "moderate"

/-- One vulnerability record of the pyup.io response; `severity` is
absent when the upstream record lacks the field (in which case the
source's `vuln.severity.toLowerCase()` throws a `TypeError`). -/
structure PyVuln where
  severity : Option String
  advisory : String
  deriving Repr, DecidableEq

/-- The body of the pyup.io response the source inspects:
`response.data` and `response.data.vulnerabilities` may each be absent. -/
structure PyResponse where
  data : Option (Option (List PyVuln))
  deriving Repr, DecidableEq

/-- The `forEach` over one package's vulnerability records: findings
pushed before a `TypeError` (missing `severity`) survive; the records
after the throw are skipped.  Returns the pushed findings and whether the
loop threw. -/
def processVulns (pkg : String) : List PyVuln → List Finding × Bool
  | [] => ([], false)
  | v :: rest =>
    match v.severity with
    | none => ([], true)
    | some sev =>
      let f : Finding := { package := pkg, severity := mapSeverity sev, title := v.advisory }
      let r := processVulns pkg rest
      (f :: r.1, r.2)

/-- `PythonScanner.getVulnerabilities`: per dependency, fetch the pyup.io
record (the I/O parameter `httpGet`); any throw — HTTP failure or a
malformed record mid-`forEach` — is caught by the loop's `catch`, which
`continue`s, keeping what was already pushed. -/
def getVulnerabilities (dependencies : List Dep)
    (httpGet : String → Except JsError PyResponse) :
    Except JsError (List Finding) :=
  .ok (dependencies.flatMap (fun dep =>
    match httpGet dep.name with
    | .error _ => []
    | .ok response =>
      match response.data with
      | none => []
      | some vulnsOpt =>
        match vulnsOpt with
        | none => []
        | some vulns => (processVulns dep.name vulns).1))

/-- `PythonScanner.extractOperator`: the first listed operator the
version string starts with, else `null`. -/
def extractOperator (versionString : String) : Option String :=
  operators.find? (fun op => jsStartsWith versionString op)

/-- `PythonScanner.applyUpdates` (file read/write is I/O): map over the
lines of `requirements.txt`, leaving blank/comment lines and lines naming
no updated package untouched; a line whose parsed name matches an update
is rebuilt as `name + operator + latest`, where a missing operator
defaults to `==`. -/
def applyUpdates (updates : List Candidate) (content : String) : String :=
  let lines := jsSplit content "\n"
  let updatedLines := lines.map (fun line =>
    let trimmed := jsTrim line
    if !jsTruthy trimmed || jsStartsWith trimmed "#" then line
    else
      let dependency := parseDependency trimmed
      match updates.find? (fun u => u.name = dependency.name) with
      | none => line
      | some update =>
        let operator := (extractOperator dependency.version).getD "=="
        dependency.name ++ operator ++ update.latest)
  String.intercalate "\n" updatedLines

end Python

/-! ## Helper lemmas -/

/-- A concrete registry lookup that always resolves to version `v`. -/
def okLookup (v : String) : String → Except JsError String := fun _ => .ok v

lemma checkOne_fields {f : String → Except JsError String} {dep : Dep} {c : Candidate}
    (h : checkOne f dep = some c) :
    c.safe = decide (c.updateType ≠ UpdateType.major) ∧
    c.breaking = decide (c.updateType = UpdateType.major) ∧
    c.current ≠ c.latest ∧
    c.updateType = getUpdateType c.current c.latest := by
  unfold checkOne at h
  split at h
  · exact absurd h (by simp)
  · split at h
    · exact absurd h (by simp)
    · split at h
      · rename_i hcond
        cases h
        simp only [Bool.and_eq_true, decide_eq_true_eq] at hcond
        refine ⟨rfl, rfl, ?_, rfl⟩
        tauto
      · exact absurd h (by simp)

lemma check_mem {deps : List Dep} {f : String → Except JsError String} {c : Candidate}
    (h : c ∈ check deps f) : ∃ dep, checkOne f dep = some c := by
  unfold check at h
  rcases List.mem_filterMap.mp h with ⟨dep, _, hsome⟩
  exact ⟨dep, hsome⟩

/-! ## String- and split-level helper lemmas (for C4) -/

lemma mk_data (s : String) : String.mk s.data = s := rfl

lemma data_append (a b : String) : (a ++ b).data = a.data ++ b.data := rfl

lemma isPrefixOf_self_append (p r : List Char) : p.isPrefixOf (p ++ r) = true := by
  induction p with
  | nil => simp [List.isPrefixOf]
  | cons a as ih => simp [List.isPrefixOf, ih]

lemma isPrefixOf_cons_false (s1 x : Char) (cs xs : List Char) (h : x ≠ s1) :
    (s1 :: cs).isPrefixOf (x :: xs) = false := by
  have hb : (s1 == x) = false := by
    rw [beq_eq_false_iff_ne]
    exact fun e => h e.symm
  simp [List.isPrefixOf, hb]

lemma splitOnGo_no_occ (s1 : Char) (cs : List Char) :
    ∀ (l acc : List Char), (∀ x ∈ l, x ≠ s1) →
      splitOnGo (s1 :: cs) 0 acc l = [acc.reverse ++ l] := by
  intro l
  induction l with
  | nil =>
    intro acc _
    simp [splitOnGo]
  | cons x xs ih =>
    intro acc h
    have hx : x ≠ s1 := h x (List.mem_cons_self x xs)
    have hpre := isPrefixOf_cons_false s1 x cs xs hx
    simp only [splitOnGo, List.append_eq, hpre, Bool.false_eq_true, if_false]
    rw [ih (x :: acc) (fun y hy => h y (List.mem_cons_of_mem x hy))]
    simp

lemma splitOnGo_skip (sep : List Char) :
    ∀ (pre rest acc : List Char),
      splitOnGo sep pre.length acc (pre ++ rest) = splitOnGo sep 0 acc rest := by
  intro pre
  induction pre with
  | nil => intro rest acc; rfl
  | cons p ps ih =>
    intro rest acc
    simp only [List.cons_append, List.length_cons, splitOnGo]
    exact ih rest acc

lemma splitOnGo_boundary (s1 : Char) (cs : List Char) :
    ∀ (nm ver acc : List Char), (∀ x ∈ nm, x ≠ s1) → (∀ x ∈ ver, x ≠ s1) →
      splitOnGo (s1 :: cs) 0 acc (nm ++ (s1 :: cs) ++ ver) = [acc.reverse ++ nm, ver] := by
  intro nm
  induction nm with
  | nil =>
    intro ver acc _ h2
    have hpre : (s1 :: cs).isPrefixOf (s1 :: (cs ++ ver)) = true :=
      isPrefixOf_self_append (s1 :: cs) ver
    simp only [List.nil_append, List.cons_append, splitOnGo, List.append_eq, hpre, if_true]
    have hskip : splitOnGo (s1 :: cs) ((s1 :: cs).length - 1) [] (cs ++ ver)
        = splitOnGo (s1 :: cs) 0 [] ver := by
      have := splitOnGo_skip (s1 :: cs) cs ver []
      simpa using this
    rw [hskip, splitOnGo_no_occ s1 cs ver [] h2]
    simp
  | cons n0 ns ih =>
    intro ver acc h1 h2
    have hx : n0 ≠ s1 := h1 n0 (List.mem_cons_self n0 ns)
    have hpre := isPrefixOf_cons_false s1 n0 cs (ns ++ (s1 :: cs) ++ ver) hx
    simp only [List.cons_append, splitOnGo, List.append_eq, hpre, Bool.false_eq_true, if_false]
    have := ih ver (n0 :: acc) (fun y hy => h1 y (List.mem_cons_of_mem n0 hy)) h2
    simp only [List.cons_append] at this
    rw [this]
    simp

lemma splitOnGo_mid (s1 : Char) (cs : List Char) :
    ∀ (nm ver acc : List Char), (∀ x ∈ nm, x ≠ s1) → (∀ x ∈ ver, x ≠ s1) →
      cs.isPrefixOf ver = false →
      splitOnGo (s1 :: cs) 0 acc (nm ++ s1 :: ver) = [acc.reverse ++ nm ++ s1 :: ver] := by
  intro nm
  induction nm with
  | nil =>
    intro ver acc _ h2 h3
    have hpre : (s1 :: cs).isPrefixOf (s1 :: ver) = false := by
      simp [List.isPrefixOf, h3]
    simp only [List.nil_append, splitOnGo, List.append_eq, hpre, Bool.false_eq_true, if_false]
    rw [splitOnGo_no_occ s1 cs ver (s1 :: acc) h2]
    simp
  | cons n0 ns ih =>
    intro ver acc h1 h2 h3
    have hx : n0 ≠ s1 := h1 n0 (List.mem_cons_self n0 ns)
    have hpre := isPrefixOf_cons_false s1 n0 cs (ns ++ s1 :: ver) hx
    simp only [List.cons_append, splitOnGo, List.append_eq, hpre, Bool.false_eq_true, if_false]
    have := ih ver (n0 :: acc) (fun y hy => h1 y (List.mem_cons_of_mem n0 hy)) h2 h3
    rw [this]
    simp

lemma dropWhile_no_ws (l : List Char) (h : ∀ x ∈ l, isJsWs x = false) :
    l.dropWhile isJsWs = l := by
  cases l with
  | nil => rfl
  | cons x xs =>
    rw [List.dropWhile_cons]
    simp [h x (List.mem_cons_self x xs)]

lemma jsTrim_eq_self (s : String) (h : ∀ x ∈ s.data, isJsWs x = false) :
    jsTrim s = s := by
  unfold jsTrim
  rw [dropWhile_no_ws s.data h]
  rw [dropWhile_no_ws s.data.reverse (fun x hx => h x (List.mem_reverse.mp hx))]
  rw [List.reverse_reverse]

/-- Character class of ordinary python package names (letters, digits,
`-`, `_`, `.`): contains no requirement operator characters, no comment
marker and no whitespace. -/
def pyNameChar (c : Char) : Bool :=
  c.isAlphanum || c = '-' || c = '_' || c = '.'

/-- Character class of plain version numbers (letters, digits, `.`). -/
def pyVerChar (c : Char) : Bool :=
  c.isAlphanum || c = '.'

lemma class_ne {P : Char → Bool} {c : Char} (x : Char) (hc : P c = true)
    (hx : P x = false) : c ≠ x := by
  intro e
  rw [e, hx] at hc
  cases hc

lemma alphanum_not_ws (c : Char) (h : c.isAlphanum = true) : isJsWs c = false := by
  have h1 : c ≠ ' ' := class_ne ' ' h (by decide)
  have h2 : c ≠ '\t' := class_ne '\t' h (by decide)
  have h3 : c ≠ '\n' := class_ne '\n' h (by decide)
  have h4 : c ≠ '\r' := class_ne '\r' h (by decide)
  have h5 : c ≠ '\x0b' := class_ne '\x0b' h (by decide)
  have h6 : c ≠ '\x0c' := class_ne '\x0c' h (by decide)
  simp [isJsWs, h1, h2, h3, h4, h5, h6]

lemma pyNameChar_not_ws (c : Char) (h : pyNameChar c = true) : isJsWs c = false := by
  have h1 : c ≠ ' ' := class_ne ' ' h (by decide)
  have h2 : c ≠ '\t' := class_ne '\t' h (by decide)
  have h3 : c ≠ '\n' := class_ne '\n' h (by decide)
  have h4 : c ≠ '\r' := class_ne '\r' h (by decide)
  have h5 : c ≠ '\x0b' := class_ne '\x0b' h (by decide)
  have h6 : c ≠ '\x0c' := class_ne '\x0c' h (by decide)
  simp [isJsWs, h1, h2, h3, h4, h5, h6]

lemma pyVerChar_not_ws (c : Char) (h : pyVerChar c = true) : isJsWs c = false := by
  have h1 : c ≠ ' ' := class_ne ' ' h (by decide)
  have h2 : c ≠ '\t' := class_ne '\t' h (by decide)
  have h3 : c ≠ '\n' := class_ne '\n' h (by decide)
  have h4 : c ≠ '\r' := class_ne '\r' h (by decide)
  have h5 : c ≠ '\x0b' := class_ne '\x0b' h (by decide)
  have h6 : c ≠ '\x0c' := class_ne '\x0c' h (by decide)
  simp [isJsWs, h1, h2, h3, h4, h5, h6]

lemma jsTruthy_of_data_ne_nil (s : String) (h : s.data ≠ []) : jsTruthy s = true := by
  unfold jsTruthy
  rw [decide_eq_true_eq]
  intro he
  rw [he] at h
  exact h rfl

lemma jsIncludes_false_of_absent (line o : String) (o1 : Char) (os : List Char)
    (ho : o.data = o1 :: os) (h : ∀ x ∈ line.data, x ≠ o1) :
    jsIncludes line o = false := by
  unfold jsIncludes
  rw [ho]
  simp only [splitOnNE, splitOnGo_no_occ o1 os line.data [] h]
  simp

lemma jsSplit_boundary (nameS o ver : String) (o1 : Char) (os : List Char)
    (ho : o.data = o1 :: os)
    (hn : ∀ x ∈ nameS.data, x ≠ o1) (hv : ∀ x ∈ ver.data, x ≠ o1) :
    jsSplit (nameS ++ o ++ ver) o = [nameS, ver] := by
  unfold jsSplit
  rw [ho]
  simp only [splitOnNE]
  have hdata : (nameS ++ o ++ ver).data = nameS.data ++ (o1 :: os) ++ ver.data := by
    rw [data_append, data_append, ho]
  rw [hdata]
  simp only [splitOnGo_boundary o1 os nameS.data ver.data [] hn hv]
  simp

lemma jsIncludes_true_boundary (nameS o ver : String) (o1 : Char) (os : List Char)
    (ho : o.data = o1 :: os)
    (hn : ∀ x ∈ nameS.data, x ≠ o1) (hv : ∀ x ∈ ver.data, x ≠ o1) :
    jsIncludes (nameS ++ o ++ ver) o = true := by
  unfold jsIncludes
  rw [ho]
  simp only [splitOnNE]
  have hdata : (nameS ++ o ++ ver).data = nameS.data ++ (o1 :: os) ++ ver.data := by
    rw [data_append, data_append, ho]
  rw [hdata]
  simp only [splitOnGo_boundary o1 os nameS.data ver.data [] hn hv]
  simp

lemma jsIncludes_false_mid (nameS ver : String) (o : String) (o1 : Char) (os : List Char)
    (ho : o.data = o1 :: os)
    (hn : ∀ x ∈ nameS.data, x ≠ o1) (hv : ∀ x ∈ ver.data, x ≠ o1)
    (hos : os.isPrefixOf ver.data = false) :
    jsIncludes (nameS ++ String.mk [o1] ++ ver) o = false := by
  unfold jsIncludes
  rw [ho]
  simp only [splitOnNE]
  have hdata : (nameS ++ String.mk [o1] ++ ver).data = nameS.data ++ o1 :: ver.data := by
    rw [data_append, data_append]
    simp
  rw [hdata]
  simp only [splitOnGo_mid o1 os nameS.data ver.data [] hn hv hos]
  simp

lemma extractOperator_comparison (ver op : String)
    (hop : op ∈ ([">=", ">", "<=", "<"] : List String))
    (hv : ∀ x ∈ ver.data, pyVerChar x = true)
    (hvne : ver.data ≠ []) :
    Python.extractOperator (op ++ ver) = some op := by
  have hpre_eq : (['='] : List Char).isPrefixOf ver.data = false := by
    cases hvd : ver.data with
    | nil => exact absurd hvd hvne
    | cons v0 vrest =>
      have hv0 : v0 ≠ '=' :=
        class_ne '=' (hv v0 (by rw [hvd]; exact List.mem_cons_self v0 vrest)) (by decide)
      exact isPrefixOf_cons_false '=' v0 [] vrest hv0
  simp only [List.mem_cons, List.mem_singleton, List.not_mem_nil, or_false] at hop
  rcases hop with rfl | rfl | rfl | rfl
  · have h1 : jsStartsWith (">=" ++ ver) ">=" = true := by
      unfold jsStartsWith
      rw [data_append]
      simp [List.isPrefixOf]
    unfold Python.extractOperator
    simp [Python.operators, List.find?, h1]
  · have hd : (">" ++ ver).data = '>' :: ver.data := rfl
    have h1 : jsStartsWith (">" ++ ver) ">=" = false := by
      unfold jsStartsWith
      rw [hd]
      simp [List.isPrefixOf, hpre_eq]
    have h2 : jsStartsWith (">" ++ ver) "<=" = false := by
      unfold jsStartsWith
      rw [hd]
      exact isPrefixOf_cons_false '<' '>' ['='] ver.data (by decide)
    have h3 : jsStartsWith (">" ++ ver) "==" = false := by
      unfold jsStartsWith
      rw [hd]
      exact isPrefixOf_cons_false '=' '>' ['='] ver.data (by decide)
    have h4 : jsStartsWith (">" ++ ver) "!=" = false := by
      unfold jsStartsWith
      rw [hd]
      exact isPrefixOf_cons_false '!' '>' ['='] ver.data (by decide)
    have h5 : jsStartsWith (">" ++ ver) "~=" = false := by
      unfold jsStartsWith
      rw [hd]
      exact isPrefixOf_cons_false '~' '>' ['='] ver.data (by decide)
    have h6 : jsStartsWith (">" ++ ver) ">" = true := by
      unfold jsStartsWith
      rw [hd]
      simp [List.isPrefixOf]
    unfold Python.extractOperator
    simp [Python.operators, List.find?, h1, h2, h3, h4, h5, h6]
  · have hd : ("<=" ++ ver).data = '<' :: '=' :: ver.data := rfl
    have h1 : jsStartsWith ("<=" ++ ver) ">=" = false := by
      unfold jsStartsWith
      rw [hd]
      exact isPrefixOf_cons_false '>' '<' ['='] ('=' :: ver.data) (by decide)
    have h2 : jsStartsWith ("<=" ++ ver) "<=" = true := by
      unfold jsStartsWith
      rw [hd]
      simp [List.isPrefixOf]
    unfold Python.extractOperator
    simp [Python.operators, List.find?, h1, h2]
  · have hd : ("<" ++ ver).data = '<' :: ver.data := rfl
    have h1 : jsStartsWith ("<" ++ ver) ">=" = false := by
      unfold jsStartsWith
      rw [hd]
      exact isPrefixOf_cons_false '>' '<' ['='] ver.data (by decide)
    have h2 : jsStartsWith ("<" ++ ver) "<=" = false := by
      unfold jsStartsWith
      rw [hd]
      simp [List.isPrefixOf, hpre_eq]
    have h3 : jsStartsWith ("<" ++ ver) "==" = false := by
      unfold jsStartsWith
      rw [hd]
      exact isPrefixOf_cons_false '=' '<' ['='] ver.data (by decide)
    have h4 : jsStartsWith ("<" ++ ver) "!=" = false := by
      unfold jsStartsWith
      rw [hd]
      exact isPrefixOf_cons_false '!' '<' ['='] ver.data (by decide)
    have h5 : jsStartsWith ("<" ++ ver) "~=" = false := by
      unfold jsStartsWith
      rw [hd]
      exact isPrefixOf_cons_false '~' '<' ['='] ver.data (by decide)
    have h6 : jsStartsWith ("<" ++ ver) ">" = false := by
      unfold jsStartsWith
      rw [hd]
      exact isPrefixOf_cons_false '>' '<' [] ver.data (by decide)
    have h7 : jsStartsWith ("<" ++ ver) "<" = true := by
      unfold jsStartsWith
      rw [hd]
      simp [List.isPrefixOf]
    unfold Python.extractOperator
    simp [Python.operators, List.find?, h1, h2, h3, h4, h5, h6, h7]

lemma line_chars_ne (nameS op ver : String) (c : Char)
    (h1 : ∀ x ∈ nameS.data, x ≠ c) (h2 : ∀ x ∈ op.data, x ≠ c)
    (h3 : ∀ x ∈ ver.data, x ≠ c) :
    ∀ x ∈ (nameS ++ op ++ ver).data, x ≠ c := by
  intro x hx
  rw [data_append, data_append] at hx
  rcases List.mem_append.mp hx with hx' | hx'
  · rcases List.mem_append.mp hx' with hx'' | hx''
    · exact h1 x hx''
    · exact h2 x hx''
  · exact h3 x hx'

lemma parseDependency_comparison (nameS ver op : String)
    (hop : op ∈ ([">=", ">", "<=", "<"] : List String))
    (hn : ∀ x ∈ nameS.data, pyNameChar x = true)
    (hv : ∀ x ∈ ver.data, pyVerChar x = true)
    (hvne : ver.data ≠ []) :
    Python.parseDependency (nameS ++ op ++ ver)
      = ⟨nameS, op ++ ver, some ver⟩ := by
  have hnf : ∀ (c : Char), pyNameChar c = false → ∀ x ∈ nameS.data, x ≠ c :=
    fun c hc x hx => class_ne c (hn x hx) hc
  have hvf : ∀ (c : Char), pyVerChar c = false → ∀ x ∈ ver.data, x ≠ c :=
    fun c hc x hx => class_ne c (hv x hx) hc
  have hn_gt := hnf '>' (by decide)
  have hn_lt := hnf '<' (by decide)
  have hn_eq := hnf '=' (by decide)
  have hn_bang := hnf '!' (by decide)
  have hn_tilde := hnf '~' (by decide)
  have hv_gt := hvf '>' (by decide)
  have hv_lt := hvf '<' (by decide)
  have hv_eq := hvf '=' (by decide)
  have hv_bang := hvf '!' (by decide)
  have hv_tilde := hvf '~' (by decide)
  have hpre_eq : (['='] : List Char).isPrefixOf ver.data = false := by
    cases hvd : ver.data with
    | nil => exact absurd hvd hvne
    | cons v0 vrest =>
      have hv0 : v0 ≠ '=' :=
        class_ne '=' (hv v0 (by rw [hvd]; exact List.mem_cons_self v0 vrest)) (by decide)
      exact isPrefixOf_cons_false '=' v0 [] vrest hv0
  have htrim_name : jsTrim nameS = nameS :=
    jsTrim_eq_self nameS (fun x hx => pyNameChar_not_ws x (hn x hx))
  have htrim_ver : jsTrim ver = ver :=
    jsTrim_eq_self ver (fun x hx => pyVerChar_not_ws x (hv x hx))
  simp only [List.mem_cons, List.mem_singleton, List.not_mem_nil, or_false] at hop
  rcases hop with rfl | rfl | rfl | rfl
  · have hInc : jsIncludes (nameS ++ ">=" ++ ver) ">=" = true :=
      jsIncludes_true_boundary nameS ">=" ver '>' ['='] rfl hn_gt hv_gt
    have hSplit : jsSplit (nameS ++ ">=" ++ ver) ">=" = [nameS, ver] :=
      jsSplit_boundary nameS ">=" ver '>' ['='] rfl hn_gt hv_gt
    unfold Python.parseDependency
    simp only [Python.operators, List.find?, hInc]
    simp only [hSplit, List.headD, List.drop, htrim_name, htrim_ver]
  · have hInc1 : jsIncludes (nameS ++ ">" ++ ver) ">=" = false := by
      have := jsIncludes_false_mid nameS ver ">=" '>' ['='] rfl hn_gt hv_gt hpre_eq
      simpa using this
    have hInc2 : jsIncludes (nameS ++ ">" ++ ver) "<=" = false :=
      jsIncludes_false_of_absent _ "<=" '<' ['='] rfl
        (line_chars_ne nameS ">" ver '<' hn_lt (by decide) hv_lt)
    have hInc3 : jsIncludes (nameS ++ ">" ++ ver) "==" = false :=
      jsIncludes_false_of_absent _ "==" '=' ['='] rfl
        (line_chars_ne nameS ">" ver '=' hn_eq (by decide) hv_eq)
    have hInc4 : jsIncludes (nameS ++ ">" ++ ver) "!=" = false :=
      jsIncludes_false_of_absent _ "!=" '!' ['='] rfl
        (line_chars_ne nameS ">" ver '!' hn_bang (by decide) hv_bang)
    have hInc5 : jsIncludes (nameS ++ ">" ++ ver) "~=" = false :=
      jsIncludes_false_of_absent _ "~=" '~' ['='] rfl
        (line_chars_ne nameS ">" ver '~' hn_tilde (by decide) hv_tilde)
    have hInc6 : jsIncludes (nameS ++ ">" ++ ver) ">" = true :=
      jsIncludes_true_boundary nameS ">" ver '>' [] rfl hn_gt hv_gt
    have hSplit : jsSplit (nameS ++ ">" ++ ver) ">" = [nameS, ver] :=
      jsSplit_boundary nameS ">" ver '>' [] rfl hn_gt hv_gt
    unfold Python.parseDependency
    simp only [Python.operators, List.find?, hInc1, hInc2, hInc3, hInc4, hInc5, hInc6]
    simp only [hSplit, List.headD, List.drop, htrim_name, htrim_ver]
  · have hInc1 : jsIncludes (nameS ++ "<=" ++ ver) ">=" = false :=
      jsIncludes_false_of_absent _ ">=" '>' ['='] rfl
        (line_chars_ne nameS "<=" ver '>' hn_gt (by decide) hv_gt)
    have hInc2 : jsIncludes (nameS ++ "<=" ++ ver) "<=" = true :=
      jsIncludes_true_boundary nameS "<=" ver '<' ['='] rfl hn_lt hv_lt
    have hSplit : jsSplit (nameS ++ "<=" ++ ver) "<=" = [nameS, ver] :=
      jsSplit_boundary nameS "<=" ver '<' ['='] rfl hn_lt hv_lt
    unfold Python.parseDependency
    simp only [Python.operators, List.find?, hInc1, hInc2]
    simp only [hSplit, List.headD, List.drop, htrim_name, htrim_ver]
  · have hInc1 : jsIncludes (nameS ++ "<" ++ ver) ">=" = false :=
      jsIncludes_false_of_absent _ ">=" '>' ['='] rfl
        (line_chars_ne nameS "<" ver '>' hn_gt (by decide) hv_gt)
    have hInc2 : jsIncludes (nameS ++ "<" ++ ver) "<=" = false := by
      have := jsIncludes_false_mid nameS ver "<=" '<' ['='] rfl hn_lt hv_lt hpre_eq
      simpa using this
    have hInc3 : jsIncludes (nameS ++ "<" ++ ver) "==" = false :=
      jsIncludes_false_of_absent _ "==" '=' ['='] rfl
        (line_chars_ne nameS "<" ver '=' hn_eq (by decide) hv_eq)
    have hInc4 : jsIncludes (nameS ++ "<" ++ ver) "!=" = false :=
      jsIncludes_false_of_absent _ "!=" '!' ['='] rfl
        (line_chars_ne nameS "<" ver '!' hn_bang (by decide) hv_bang)
    have hInc5 : jsIncludes (nameS ++ "<" ++ ver) "~=" = false :=
      jsIncludes_false_of_absent _ "~=" '~' ['='] rfl
        (line_chars_ne nameS "<" ver '~' hn_tilde (by decide) hv_tilde)
    have hInc6 : jsIncludes (nameS ++ "<" ++ ver) ">" = false :=
      jsIncludes_false_of_absent _ ">" '>' [] rfl
        (line_chars_ne nameS "<" ver '>' hn_gt (by decide) hv_gt)
    have hInc7 : jsIncludes (nameS ++ "<" ++ ver) "<" = true :=
      jsIncludes_true_boundary nameS "<" ver '<' [] rfl hn_lt hv_lt
    have hSplit : jsSplit (nameS ++ "<" ++ ver) "<" = [nameS, ver] :=
      jsSplit_boundary nameS "<" ver '<' [] rfl hn_lt hv_lt
    unfold Python.parseDependency
    simp only [Python.operators, List.find?, hInc1, hInc2, hInc3, hInc4, hInc5,
      hInc6, hInc7]
    simp only [hSplit, List.headD, List.drop, htrim_name, htrim_ver]

lemma parseDependency_bare (nameS : String)
    (hn : ∀ x ∈ nameS.data, pyNameChar x = true) :
    Python.parseDependency nameS = ⟨nameS, "*", Option.none⟩ := by
  have hnf : ∀ (c : Char), pyNameChar c = false → ∀ x ∈ nameS.data, x ≠ c :=
    fun c hc x hx => class_ne c (hn x hx) hc
  have hInc1 : jsIncludes nameS ">=" = false :=
    jsIncludes_false_of_absent _ ">=" '>' ['='] rfl (hnf '>' (by decide))
  have hInc2 : jsIncludes nameS "<=" = false :=
    jsIncludes_false_of_absent _ "<=" '<' ['='] rfl (hnf '<' (by decide))
  have hInc3 : jsIncludes nameS "==" = false :=
    jsIncludes_false_of_absent _ "==" '=' ['='] rfl (hnf '=' (by decide))
  have hInc4 : jsIncludes nameS "!=" = false :=
    jsIncludes_false_of_absent _ "!=" '!' ['='] rfl (hnf '!' (by decide))
  have hInc5 : jsIncludes nameS "~=" = false :=
    jsIncludes_false_of_absent _ "~=" '~' ['='] rfl (hnf '~' (by decide))
  have hInc6 : jsIncludes nameS ">" = false :=
    jsIncludes_false_of_absent _ ">" '>' [] rfl (hnf '>' (by decide))
  have hInc7 : jsIncludes nameS "<" = false :=
    jsIncludes_false_of_absent _ "<" '<' [] rfl (hnf '<' (by decide))
  have htrim_name : jsTrim nameS = nameS :=
    jsTrim_eq_self nameS (fun x hx => pyNameChar_not_ws x (hn x hx))
  unfold Python.parseDependency
  simp only [Python.operators, List.find?, hInc1, hInc2, hInc3, hInc4, hInc5,
    hInc6, hInc7, htrim_name]

lemma intercalate_single (sep x : String) : String.intercalate sep [x] = x := rfl

lemma pyApplyUpdates_single (updates : List Candidate) (u : Candidate) (line : String)
    (hws : ∀ x ∈ line.data, isJsWs x = false)
    (hnl : ∀ x ∈ line.data, x ≠ '\n')
    (hne : line.data ≠ [])
    (hhash : jsStartsWith line "#" = false)
    (hfind : updates.find? (fun v => v.name = (Python.parseDependency line).name)
      = some u) :
    Python.applyUpdates updates line
      = (Python.parseDependency line).name ++
          ((Python.extractOperator (Python.parseDependency line).version).getD "==")
          ++ u.latest := by
  have hsplit : jsSplit line "\n" = [line] := by
    unfold jsSplit
    show (splitOnNE '\n' [] line.data).map String.mk = [line]
    unfold splitOnNE
    rw [splitOnGo_no_occ '\n' [] line.data [] hnl]
    simp
  have htrim : jsTrim line = line := jsTrim_eq_self line hws
  have htruthy := jsTruthy_of_data_ne_nil line hne
  unfold Python.applyUpdates
  rw [hsplit]
  simp only [List.map_cons, List.map_nil, htrim, htruthy, hhash, Bool.not_true,
    Bool.or_false, Bool.false_eq_true, if_false, hfind]
  rw [intercalate_single]

lemma getVersionPrefix_of_op (op v : String)
    (hop : op ∈ (["^", "~", ">=", ">", "<=", "<", ""] : List String))
    (d : Char) (rest : List Char) (hv : v.data = d :: rest) (hd : d.isDigit = true) :
    Npm.getVersionPrefix (op ++ v) = op := by
  have hd_caret : d ≠ '^' := class_ne '^' hd (by decide)
  have hd_tilde : d ≠ '~' := class_ne '~' hd (by decide)
  have hd_gt : d ≠ '>' := class_ne '>' hd (by decide)
  have hd_lt : d ≠ '<' := class_ne '<' hd (by decide)
  have hd_eq : d ≠ '=' := class_ne '=' hd (by decide)
  simp only [List.mem_cons, List.mem_singleton, List.not_mem_nil, or_false] at hop
  rcases hop with rfl | rfl | rfl | rfl | rfl | rfl | rfl
  · have h1 : jsStartsWith ("^" ++ v) "^" = true := by
      unfold jsStartsWith
      rw [show ("^" ++ v).data = '^' :: v.data from rfl]
      simp [List.isPrefixOf]
    unfold Npm.getVersionPrefix
    simp [h1]
  · have hdata : ("~" ++ v).data = '~' :: v.data := rfl
    have h1 : jsStartsWith ("~" ++ v) "^" = false := by
      unfold jsStartsWith
      rw [hdata]
      exact isPrefixOf_cons_false '^' '~' [] v.data (by decide)
    have h2 : jsStartsWith ("~" ++ v) "~" = true := by
      unfold jsStartsWith
      rw [hdata]
      simp [List.isPrefixOf]
    unfold Npm.getVersionPrefix
    simp [h1, h2]
  · have hdata : (">=" ++ v).data = '>' :: '=' :: v.data := rfl
    have h1 : jsStartsWith (">=" ++ v) "^" = false := by
      unfold jsStartsWith
      rw [hdata]
      exact isPrefixOf_cons_false '^' '>' [] ('=' :: v.data) (by decide)
    have h2 : jsStartsWith (">=" ++ v) "~" = false := by
      unfold jsStartsWith
      rw [hdata]
      exact isPrefixOf_cons_false '~' '>' [] ('=' :: v.data) (by decide)
    have h3 : jsStartsWith (">=" ++ v) ">=" = true := by
      unfold jsStartsWith
      rw [hdata]
      simp [List.isPrefixOf]
    unfold Npm.getVersionPrefix
    simp [h1, h2, h3]
  · have hdata : (">" ++ v).data = '>' :: d :: rest := by
      rw [show (">" ++ v).data = '>' :: v.data from rfl, hv]
    have h1 : jsStartsWith (">" ++ v) "^" = false := by
      unfold jsStartsWith
      rw [hdata]
      exact isPrefixOf_cons_false '^' '>' [] (d :: rest) (by decide)
    have h2 : jsStartsWith (">" ++ v) "~" = false := by
      unfold jsStartsWith
      rw [hdata]
      exact isPrefixOf_cons_false '~' '>' [] (d :: rest) (by decide)
    have h3 : jsStartsWith (">" ++ v) ">=" = false := by
      unfold jsStartsWith
      rw [hdata]
      simp [List.isPrefixOf, isPrefixOf_cons_false '=' d [] rest hd_eq, Ne.symm hd_eq]
    have h4 : jsStartsWith (">" ++ v) ">" = true := by
      unfold jsStartsWith
      rw [hdata]
      simp [List.isPrefixOf]
    unfold Npm.getVersionPrefix
    simp [h1, h2, h3, h4]
  · have hdata : ("<=" ++ v).data = '<' :: '=' :: v.data := rfl
    have h1 : jsStartsWith ("<=" ++ v) "^" = false := by
      unfold jsStartsWith
      rw [hdata]
      exact isPrefixOf_cons_false '^' '<' [] ('=' :: v.data) (by decide)
    have h2 : jsStartsWith ("<=" ++ v) "~" = false := by
      unfold jsStartsWith
      rw [hdata]
      exact isPrefixOf_cons_false '~' '<' [] ('=' :: v.data) (by decide)
    have h3 : jsStartsWith ("<=" ++ v) ">=" = false := by
      unfold jsStartsWith
      rw [hdata]
      exact isPrefixOf_cons_false '>' '<' ['='] ('=' :: v.data) (by decide)
    have h4 : jsStartsWith ("<=" ++ v) ">" = false := by
      unfold jsStartsWith
      rw [hdata]
      exact isPrefixOf_cons_false '>' '<' [] ('=' :: v.data) (by decide)
    have h5 : jsStartsWith ("<=" ++ v) "<=" = true := by
      unfold jsStartsWith
      rw [hdata]
      simp [List.isPrefixOf]
    unfold Npm.getVersionPrefix
    simp [h1, h2, h3, h4, h5]
  · have hdata : ("<" ++ v).data = '<' :: d :: rest := by
      rw [show ("<" ++ v).data = '<' :: v.data from rfl, hv]
    have h1 : jsStartsWith ("<" ++ v) "^" = false := by
      unfold jsStartsWith
      rw [hdata]
      exact isPrefixOf_cons_false '^' '<' [] (d :: rest) (by decide)
    have h2 : jsStartsWith ("<" ++ v) "~" = false := by
      unfold jsStartsWith
      rw [hdata]
      exact isPrefixOf_cons_false '~' '<' [] (d :: rest) (by decide)
    have h3 : jsStartsWith ("<" ++ v) ">=" = false := by
      unfold jsStartsWith
      rw [hdata]
      exact isPrefixOf_cons_false '>' '<' ['='] (d :: rest) (by decide)
    have h4 : jsStartsWith ("<" ++ v) ">" = false := by
      unfold jsStartsWith
      rw [hdata]
      exact isPrefixOf_cons_false '>' '<' [] (d :: rest) (by decide)
    have h5 : jsStartsWith ("<" ++ v) "<=" = false := by
      unfold jsStartsWith
      rw [hdata]
      simp [List.isPrefixOf, isPrefixOf_cons_false '=' d [] rest hd_eq, Ne.symm hd_eq]
    have h6 : jsStartsWith ("<" ++ v) "<" = true := by
      unfold jsStartsWith
      rw [hdata]
      simp [List.isPrefixOf]
    unfold Npm.getVersionPrefix
    simp [h1, h2, h3, h4, h5, h6]
  · have h1 : jsStartsWith v "^" = false := by
      unfold jsStartsWith
      rw [hv]
      exact isPrefixOf_cons_false '^' d [] rest hd_caret
    have h2 : jsStartsWith v "~" = false := by
      unfold jsStartsWith
      rw [hv]
      exact isPrefixOf_cons_false '~' d [] rest hd_tilde
    have h3 : jsStartsWith v ">=" = false := by
      unfold jsStartsWith
      rw [hv]
      exact isPrefixOf_cons_false '>' d ['='] rest hd_gt
    have h4 : jsStartsWith v ">" = false := by
      unfold jsStartsWith
      rw [hv]
      exact isPrefixOf_cons_false '>' d [] rest hd_gt
    have h5 : jsStartsWith v "<=" = false := by
      unfold jsStartsWith
      rw [hv]
      exact isPrefixOf_cons_false '<' d ['='] rest hd_lt
    have h6 : jsStartsWith v "<" = false := by
      unfold jsStartsWith
      rw [hv]
      exact isPrefixOf_cons_false '<' d [] rest hd_lt
    unfold Npm.getVersionPrefix
    simp [h1, h2, h3, h4, h5, h6]

lemma line_chars_prop (nameS op ver : String) (P : Char → Prop)
    (h1 : ∀ x ∈ nameS.data, P x) (h2 : ∀ x ∈ op.data, P x)
    (h3 : ∀ x ∈ ver.data, P x) :
    ∀ x ∈ (nameS ++ op ++ ver).data, P x := by
  intro x hx
  rw [data_append, data_append] at hx
  rcases List.mem_append.mp hx with hx' | hx'
  · rcases List.mem_append.mp hx' with hx'' | hx''
    · exact h1 x hx''
    · exact h2 x hx''
  · exact h3 x hx'

lemma pyPreserve (u : Candidate) (nameS ver op : String)
    (hPD : Python.parseDependency (nameS ++ op ++ ver) = ⟨nameS, op ++ ver, some ver⟩)
    (hEx : Python.extractOperator (op ++ ver) = some op)
    (hn : ∀ x ∈ nameS.data, pyNameChar x = true)
    (hv : ∀ x ∈ ver.data, pyVerChar x = true)
    (hopws : ∀ x ∈ op.data, isJsWs x = false)
    (hopnl : ∀ x ∈ op.data, x ≠ '\n')
    (hnne : nameS.data ≠ [])
    (hu : u.name = nameS) :
    Python.applyUpdates [u] (nameS ++ op ++ ver) = nameS ++ op ++ u.latest := by
  have hws : ∀ x ∈ (nameS ++ op ++ ver).data, isJsWs x = false :=
    line_chars_prop nameS op ver _ (fun x hx => pyNameChar_not_ws x (hn x hx)) hopws
      (fun x hx => pyVerChar_not_ws x (hv x hx))
  have hnl : ∀ x ∈ (nameS ++ op ++ ver).data, x ≠ '\n' :=
    line_chars_prop nameS op ver _
      (fun x hx => class_ne '\n' (hn x hx) (by decide)) hopnl
      (fun x hx => class_ne '\n' (hv x hx) (by decide))
  have hne : (nameS ++ op ++ ver).data ≠ [] := by
    rw [data_append, data_append]
    cases hnd : nameS.data with
    | nil => exact absurd hnd hnne
    | cons n0 ns => simp
  have hhash : jsStartsWith (nameS ++ op ++ ver) "#" = false := by
    unfold jsStartsWith
    rw [data_append, data_append]
    cases hnd : nameS.data with
    | nil => exact absurd hnd hnne
    | cons n0 ns =>
      have hn0 : n0 ≠ '#' :=
        class_ne '#' (hn n0 (by rw [hnd]; exact List.mem_cons_self n0 ns)) (by decide)
      exact isPrefixOf_cons_false '#' n0 [] _ hn0
  have hfind : [u].find? (fun v => v.name = (Python.parseDependency (nameS ++ op ++ ver)).name)
      = some u := by
    rw [hPD]
    simp [List.find?, hu]
  rw [pyApplyUpdates_single [u] u (nameS ++ op ++ ver) hws hnl hne hhash hfind]
  rw [hPD]
  simp only [hEx, Option.getD_some]

lemma setConstraint_keys (sec : List (String × String)) (nm v : String) :
    (Npm.setConstraint sec nm v).map Prod.fst = sec.map Prod.fst := by
  induction sec with
  | nil => rfl
  | cons p rest ih =>
    simp only [Npm.setConstraint, List.map_cons] at ih ⊢
    by_cases h : p.1 = nm
    · simp only [if_pos h]
      exact congrArg (p.1 :: ·) ih
    · simp only [if_neg h]
      exact congrArg (p.1 :: ·) ih

lemma setConstraint_cons (k w nm v : String) (rest : List (String × String)) :
    Npm.setConstraint ((k, w) :: rest) nm v
      = (if k = nm then (k, v) else (k, w)) :: Npm.setConstraint rest nm v := by
  by_cases hk : k = nm <;> simp [Npm.setConstraint, hk]

lemma lookup_cons_pair (n k w : String) (rest : List (String × String)) :
    List.lookup n ((k, w) :: rest) = if n == k then some w else List.lookup n rest := by
  cases h : n == k <;> simp [List.lookup, h]

lemma lookup_setConstraint_ne (sec : List (String × String)) (nm v n : String)
    (h : n ≠ nm) :
    (Npm.setConstraint sec nm v).lookup n = sec.lookup n := by
  induction sec with
  | nil => rfl
  | cons p rest ih =>
    rcases p with ⟨k, w⟩
    rw [setConstraint_cons]
    by_cases hk : k = nm
    · rw [if_pos hk, lookup_cons_pair, lookup_cons_pair]
      have hnk : (n == k) = false := by
        rw [beq_eq_false_iff_ne, hk]
        exact h
      rw [hnk]
      simpa using ih
    · rw [if_neg hk, lookup_cons_pair, lookup_cons_pair]
      cases hnk : n == k with
      | true => simp
      | false => simpa using ih

lemma lookup_setConstraint_self (sec : List (String × String)) (nm v x : String)
    (h : sec.lookup nm = some x) :
    (Npm.setConstraint sec nm v).lookup nm = some v := by
  induction sec with
  | nil => exact absurd h (by simp)
  | cons p rest ih =>
    rcases p with ⟨k, w⟩
    rw [lookup_cons_pair] at h
    rw [setConstraint_cons]
    by_cases hk : k = nm
    · rw [if_pos hk, lookup_cons_pair]
      have hkn : (nm == k) = true := by
        rw [beq_iff_eq]
        exact hk.symm
      rw [hkn]
      simp
    · have hnk : (nm == k) = false := by
        rw [beq_eq_false_iff_ne]
        exact fun e => hk e.symm
      rw [hnk] at h
      simp only [Bool.false_eq_true, if_false] at h
      rw [if_neg hk, lookup_cons_pair, hnk]
      simp only [Bool.false_eq_true, if_false]
      exact ih h

lemma pyBare (u : Candidate) (nameS : String)
    (hn : ∀ x ∈ nameS.data, pyNameChar x = true)
    (hnne : nameS.data ≠ [])
    (hu : u.name = nameS) :
    Python.applyUpdates [u] nameS = nameS ++ "==" ++ u.latest := by
  have hPD := parseDependency_bare nameS hn
  have hws : ∀ x ∈ nameS.data, isJsWs x = false :=
    fun x hx => pyNameChar_not_ws x (hn x hx)
  have hnl : ∀ x ∈ nameS.data, x ≠ '\n' :=
    fun x hx => class_ne '\n' (hn x hx) (by decide)
  have hhash : jsStartsWith nameS "#" = false := by
    unfold jsStartsWith
    cases hnd : nameS.data with
    | nil => exact absurd hnd hnne
    | cons n0 ns =>
      have hn0 : n0 ≠ '#' :=
        class_ne '#' (hn n0 (by rw [hnd]; exact List.mem_cons_self n0 ns)) (by decide)
      exact isPrefixOf_cons_false '#' n0 [] _ hn0
  have hfind : [u].find? (fun v => v.name = (Python.parseDependency nameS).name)
      = some u := by
    rw [hPD]
    simp [List.find?, hu]
  rw [pyApplyUpdates_single [u] u nameS hws hnl hnne hhash hfind]
  rw [hPD]
  have hEx : Python.extractOperator "*" = Option.none := rfl
  simp only [hEx, Option.getD_none]

/-! ## Claim theorems -/

/-- C4 (amended): applying an update preserves the declared constraint
operator in the npm scanner for every operator in {^, ~, >=, >, <=, <, ""}
(a bare constraint stays bare), and in the python scanner for the
comparison operators >=, >, <= and < — but a python dependency declared
with no operator does NOT remain unprefixed: its rewritten line gains an
`==` prefix. -/
theorem C4_operator_preservation :
    (∀ (op v : String) (d : Char) (rest : List Char) (u : Candidate)
        (pj : Npm.PackageJson) (sec : List (String × String)),
        op ∈ (["^", "~", ">=", ">", "<=", "<", ""] : List String) →
        v.data = d :: rest → d.isDigit = true →
        u.type_ = DepKind.production →
        pj.dependencies = some sec →
        sec.lookup u.name = some (op ++ v) →
        (Npm.applyUpdates [u] pj).dependencies.bind (fun s => s.lookup u.name)
          = some (op ++ u.latest)) ∧
    (∀ (op nameS ver : String) (u : Candidate),
        op ∈ ([">=", ">", "<=", "<"] : List String) →
        (∀ x ∈ nameS.data, pyNameChar x = true) → nameS.data ≠ [] →
        (∀ x ∈ ver.data, pyVerChar x = true) → ver.data ≠ [] →
        u.name = nameS →
        Python.applyUpdates [u] (nameS ++ op ++ ver) = nameS ++ op ++ u.latest) ∧
    (∀ (nameS : String) (u : Candidate),
        (∀ x ∈ nameS.data, pyNameChar x = true) → nameS.data ≠ [] →
        u.name = nameS →
        Python.applyUpdates [u] nameS = nameS ++ "==" ++ u.latest) := by
  refine ⟨?_, ?_, ?_⟩
  · intro op v d rest u pj sec hop hvd hdig hprod hdep hlook
    have happ : Npm.applyUpdates [u] pj = Npm.applyUpdate1 pj u := rfl
    have htr : jsTruthy (op ++ v) = true := by
      apply jsTruthy_of_data_ne_nil
      rw [data_append, hvd]
      simp
    have hpfx := getVersionPrefix_of_op op v hop d rest hvd hdig
    rw [happ]
    simp only [Npm.applyUpdate1, if_pos hprod, hdep, hlook, htr]
    rw [hpfx]
    simpa using lookup_setConstraint_self sec u.name (op ++ u.latest) (op ++ v) hlook
  · intro op nameS ver u hop hn hnne hv hvne hu
    have hop' := hop
    simp only [List.mem_cons, List.mem_singleton, List.not_mem_nil, or_false] at hop'
    rcases hop' with rfl | rfl | rfl | rfl
    · exact pyPreserve u nameS ver ">="
        (parseDependency_comparison nameS ver ">=" (by decide) hn hv hvne)
        (extractOperator_comparison ver ">=" (by decide) hv hvne)
        hn hv (by decide) (by decide) hnne hu
    · exact pyPreserve u nameS ver ">"
        (parseDependency_comparison nameS ver ">" (by decide) hn hv hvne)
        (extractOperator_comparison ver ">" (by decide) hv hvne)
        hn hv (by decide) (by decide) hnne hu
    · exact pyPreserve u nameS ver "<="
        (parseDependency_comparison nameS ver "<=" (by decide) hn hv hvne)
        (extractOperator_comparison ver "<=" (by decide) hv hvne)
        hn hv (by decide) (by decide) hnne hu
    · exact pyPreserve u nameS ver "<"
        (parseDependency_comparison nameS ver "<" (by decide) hn hv hvne)
        (extractOperator_comparison ver "<" (by decide) hv hvne)
        hn hv (by decide) (by decide) hnne hu
  · intro nameS u hn hnne hu
    exact pyBare u nameS hn hnne hu

/-- Witness for C4: a concrete python line `flask>=1.0.0` updated to
latest 2.0.0 keeps its `>=` operator. -/
theorem C4_operator_preservation_witness :
    Python.applyUpdates
        [⟨"flask", "1.0.0", ">=1.0.0", "2.0.0", DepKind.production,
          UpdateType.major, false, true⟩]
        ("flask" ++ ">=" ++ "1.0.0")
      = "flask" ++ ">=" ++ "2.0.0" :=
  C4_operator_preservation.2.1 ">=" "flask" "1.0.0"
    ⟨"flask", "1.0.0", ">=1.0.0", "2.0.0", DepKind.production,
      UpdateType.major, false, true⟩
    (by decide) (by decide) (by decide) (by decide) (by decide) rfl

/-- Counterexample to C4 as stated: a python dependency declared with no
operator does not remain unprefixed — the rewrite adds `==`. -/
theorem C4_counterexample :
    Python.applyUpdates
        [⟨"requests", "2.25.0", "*", "2.31.0", DepKind.production,
          UpdateType.minor, true, false⟩] "requests"
      = "requests==2.31.0" ∧
    ("requests==2.31.0" : String) ≠ "requests" := by
  constructor
  · decide
  · decide

/-- C1 (amended): for every candidate emitted by the update analyzer,
`safe` is true iff the distance (`updateType`) is not `major` — so `safe`
is true for `patch` and `minor`, but also for `unknown` and `none` —
`breaking` is true iff the distance is `major`, and `safe` and `breaking`
are never both true. -/
theorem C1_safe_flag (deps : List Dep) (f : String → Except JsError String)
    (c : Candidate) (hc : c ∈ check deps f) :
    (c.safe = true ↔ c.updateType ≠ UpdateType.major) ∧
    (c.breaking = true ↔ c.updateType = UpdateType.major) ∧
    ¬(c.safe = true ∧ c.breaking = true) := by
  rcases check_mem hc with ⟨dep, hdep⟩
  rcases checkOne_fields hdep with ⟨hs, hb, -, -⟩
  rw [hs, hb]
  refine ⟨by simp, by simp, ?_⟩
  rintro ⟨h1, h2⟩
  simp only [decide_eq_true_eq] at h1 h2
  exact h1 h2

/-- Witness for C1: at a concrete minor update, the emitted candidate is
safe, not breaking, and not both. -/
theorem C1_safe_flag_witness :
    (⟨"express", "4.17.1", "^4.17.1", "4.18.2", DepKind.production,
        UpdateType.minor, true, false⟩ : Candidate).safe = true ↔
      (⟨"express", "4.17.1", "^4.17.1", "4.18.2", DepKind.production,
        UpdateType.minor, true, false⟩ : Candidate).updateType ≠ UpdateType.major :=
  (C1_safe_flag [⟨"express", "^4.17.1", some "4.17.1", DepKind.production⟩]
    (okLookup "4.18.2") _ (by decide)).1

/-- Counterexample to C1 as stated: a dependency whose installed version
is not valid semver yields a candidate with distance `unknown` whose
`safe` flag is `true` (the source computes `safe = updateType !== 'major'`,
not `safe = updateType ∈ {patch, minor}`). -/
theorem C1_counterexample :
    (check [⟨"leftpad", "1.0.0", some "notsemver", DepKind.production⟩]
        (okLookup "2.0.0")).map (fun c => (c.updateType, c.safe))
      = [(UpdateType.unknown, true)] := by decide

/-- C2 (confirmed): for well-formed versions the distance is computed by
comparing the parsed (major, minor, patch) triples in priority order;
the spec's classification table holds concretely; equal resolved versions
emit no candidate; and a parse failure on either version yields
`unknown`. -/
theorem C2_classification :
    (∀ current latest c l, semverValid current = some c →
        semverValid latest = some l →
        getUpdateType current latest =
          (if l.major > c.major then UpdateType.major
           else if l.minor > c.minor then UpdateType.minor
           else if l.patch > c.patch then UpdateType.patch
           else UpdateType.none)) ∧
    getUpdateType "4.17.1" "4.18.2" = UpdateType.minor ∧
    getUpdateType "4.17.15" "4.17.21" = UpdateType.patch ∧
    getUpdateType "4.1.2" "5.0.0" = UpdateType.major ∧
    check [⟨"express", "^4.18.2", some "4.18.2", DepKind.production⟩]
        (okLookup "4.18.2") = [] ∧
    (∀ dep f v, f dep.name = .ok v →
        jsOrStr dep.installed (parseVersion dep.version) = some v →
        checkOne f dep = Option.none) ∧
    (∀ current latest, semverValid current = Option.none →
        getUpdateType current latest = UpdateType.unknown) ∧
    (∀ current latest, semverValid latest = Option.none →
        getUpdateType current latest = UpdateType.unknown) := by
  refine ⟨?_, by decide, by decide, by decide, by decide, ?_, ?_, ?_⟩
  · intro current latest c l hc hl
    unfold getUpdateType
    rw [hc, hl]
  · intro dep f v hf hcur
    unfold checkOne
    rw [hf, hcur]
    simp [jsTruthy]
  · intro current latest hc
    unfold getUpdateType
    rw [hc]
  · intro current latest hl
    unfold getUpdateType
    cases hcv : semverValid current <;> rw [hl]

/-- Witness for C2: the triple-comparison clause applied at concrete
versions 2.0.0 → 2.1.0. -/
theorem C2_classification_witness :
    getUpdateType "2.0.0" "2.1.0" =
      (if (2 : Nat) > 2 then UpdateType.major
       else if (1 : Nat) > 0 then UpdateType.minor
       else if (0 : Nat) > 0 then UpdateType.patch
       else UpdateType.none) :=
  C2_classification.1 "2.0.0" "2.1.0" ⟨2, 0, 0, [], []⟩ ⟨2, 1, 0, [], []⟩
    (by decide) (by decide)

/-- C3 (amended): `applyFixes` delegates exactly the candidates with
`safe == true` and `breaking == false`; for analyzer-produced candidates
this set is those with distance ≠ major — so a candidate with distance
`unknown` IS passed to the manifest rewrite; and no write happens iff the
filtered set is empty. -/
theorem C3_fix_filtering :
    (∀ outdated : List Candidate,
        (applyFixes outdated).getD []
          = outdated.filter (fun pkg => pkg.safe && !pkg.breaking)) ∧
    (∀ outdated : List Candidate,
        (applyFixes outdated = Option.none
          ↔ outdated.filter (fun pkg => pkg.safe && !pkg.breaking) = [])) ∧
    (∀ deps f, (applyFixes (check deps f)).getD []
        = (check deps f).filter (fun c => decide (c.updateType ≠ UpdateType.major))) := by
  have heq : ∀ outdated : List Candidate,
      applyFixes outdated
        = if (outdated.filter (fun pkg => pkg.safe && !pkg.breaking)).length = 0
          then Option.none
          else some (outdated.filter (fun pkg => pkg.safe && !pkg.breaking)) :=
    fun _ => rfl
  have hbase : ∀ outdated : List Candidate,
      (applyFixes outdated).getD []
        = outdated.filter (fun pkg => pkg.safe && !pkg.breaking) := by
    intro outdated
    rw [heq]
    split
    · rename_i hlen
      simp only [Option.getD_none]
      exact (List.length_eq_zero.mp hlen).symm
    · rfl
  refine ⟨hbase, ?_, ?_⟩
  · intro outdated
    rw [heq]
    split
    · rename_i hlen
      simp only [true_iff]
      exact List.length_eq_zero.mp hlen
    · rename_i hlen
      constructor
      · intro hsome
        exact Option.noConfusion hsome
      · intro hnil
        exact absurd (by rw [hnil]; rfl) hlen
  · intro deps f
    rw [hbase]
    apply List.filter_congr
    intro c hc
    rcases checkOne_fields (check_mem hc).choose_spec with ⟨hs, hb, -, -⟩
    rw [hs, hb]
    cases hdec : decide (c.updateType = UpdateType.major) <;>
      simp_all [decide_eq_true_eq]

/-- Counterexample to C3 as stated: the delegated set is not
`distance ∈ {patch, minor}` — a candidate with distance `unknown` is
passed to the manifest rewrite. -/
theorem C3_counterexample :
    (applyFixes (check [⟨"leftpad", "1.0.0", some "notsemver", DepKind.production⟩]
        (okLookup "2.0.0"))).map (List.map (fun c => (c.updateType, c.safe, c.breaking)))
      = some [(UpdateType.unknown, true, false)] := by decide

/-- C5 (amended): a candidate is emitted only when the resolved current
and latest version strings differ; a candidate with distance `none` can
nevertheless be emitted — exactly when both versions parse yet latest
exceeds current in no component (e.g. a registry-reported downgrade). -/
theorem C5_none_emission (deps : List Dep) (f : String → Except JsError String)
    (c : Candidate) (hc : c ∈ check deps f) :
    c.current ≠ c.latest ∧
    (c.updateType = UpdateType.none →
      ∃ vc vl, semverValid c.current = some vc ∧ semverValid c.latest = some vl ∧
        ¬(vl.major > vc.major) ∧ ¬(vl.minor > vc.minor) ∧ ¬(vl.patch > vc.patch)) := by
  rcases check_mem hc with ⟨dep, hdep⟩
  rcases checkOne_fields hdep with ⟨-, -, hne, hut⟩
  refine ⟨hne, ?_⟩
  intro hnone
  rw [hnone] at hut
  unfold getUpdateType at hut
  cases hvc : semverValid c.current with
  | none => rw [hvc] at hut; cases hut
  | some vc =>
    cases hvl : semverValid c.latest with
    | none => rw [hvc, hvl] at hut; cases hut
    | some vl =>
      rw [hvc, hvl] at hut
      have hut2 : UpdateType.none =
          (if vl.major > vc.major then UpdateType.major
           else if vl.minor > vc.minor then UpdateType.minor
           else if vl.patch > vc.patch then UpdateType.patch
           else UpdateType.none) := hut
      by_cases h1 : vl.major > vc.major
      · rw [if_pos h1] at hut2; cases hut2
      by_cases h2 : vl.minor > vc.minor
      · rw [if_neg h1, if_pos h2] at hut2; cases hut2
      by_cases h3 : vl.patch > vc.patch
      · rw [if_neg h1, if_neg h2, if_pos h3] at hut2; cases hut2
      exact ⟨vc, vl, rfl, rfl, h1, h2, h3⟩

/-- Witness for C5: the downgrade example 2.0.0 → 1.0.0 instantiates the
theorem; its emitted candidate has distinct current and latest. -/
theorem C5_none_emission_witness :
    (⟨"down", "2.0.0", "2.0.0", "1.0.0", DepKind.production,
        UpdateType.none, true, false⟩ : Candidate).current ≠
      (⟨"down", "2.0.0", "2.0.0", "1.0.0", DepKind.production,
        UpdateType.none, true, false⟩ : Candidate).latest :=
  (C5_none_emission [⟨"down", "2.0.0", some "2.0.0", DepKind.production⟩]
    (okLookup "1.0.0") _ (by decide)).1

/-- Counterexample to C5 as stated: when the registry reports an older
latest version than the resolved current one, the analyzer emits a
candidate with distance `none`. -/
theorem C5_counterexample :
    (check [⟨"down", "2.0.0", some "2.0.0", DepKind.production⟩]
        (okLookup "1.0.0")).map (fun c => c.updateType)
      = [UpdateType.none] := by decide

/-- C6 (confirmed): a dependency whose registry lookup throws contributes
nothing and does not disturb the others — classification over the batch
equals classification over the batch with the failing dependency
removed. -/
theorem C6_partial_failure (xs ys : List Dep) (bad : Dep)
    (f : String → Except JsError String) (e : JsError)
    (hf : f bad.name = .error e) :
    check (xs ++ bad :: ys) f = check (xs ++ ys) f := by
  unfold check
  rw [List.filterMap_append, List.filterMap_append, List.filterMap_cons]
  have hbad : checkOne f bad = Option.none := by
    unfold checkOne
    rw [hf]
  rw [hbad]

/-- C9 (confirmed): both scanners' vulnerability lookups return a list
and never propagate an exception to the caller — every failure path
(audit-command error with or without captured stdout, JSON parse failure,
HTTP failure, malformed record mid-iteration) is caught. -/
theorem C9_vuln_never_fails :
    (∀ (execAudit : Except JsError String)
        (parseJson : String → Except JsError Npm.AuditData),
        ∃ findings, Npm.getVulnerabilities execAudit parseJson = .ok findings) ∧
    (∀ (deps : List Dep) (httpGet : String → Except JsError Python.PyResponse),
        ∃ findings, Python.getVulnerabilities deps httpGet = .ok findings) := by
  constructor
  · intro execAudit parseJson
    unfold Npm.getVulnerabilities Npm.jsTry
    cases execAudit with
    | ok stdout =>
      cases hp : parseJson stdout with
      | ok d => exact ⟨Npm.parseAuditResults d, by simp [hp]⟩
      | error e =>
        cases he : e.stdout with
        | some out =>
          cases hp2 : parseJson out with
          | ok d2 => exact ⟨Npm.parseAuditResults d2, by simp [hp, he, hp2]⟩
          | error e2 => exact ⟨[], by simp [hp, he, hp2]⟩
        | none => exact ⟨[], by simp [hp, he]⟩
    | error e =>
      cases he : e.stdout with
      | some out =>
        cases hp2 : parseJson out with
        | ok d2 => exact ⟨Npm.parseAuditResults d2, by simp [he, hp2]⟩
        | error e2 => exact ⟨[], by simp [he, hp2]⟩
      | none => exact ⟨[], by simp [he]⟩
  · intro deps httpGet
    exact ⟨_, rfl⟩

lemma processVulns_severity {pkg : String} {vs : List Python.PyVuln} {fd : Finding}
    (h : fd ∈ (Python.processVulns pkg vs).1) :
    ∃ sev, fd.severity = Python.mapSeverity sev := by
  induction vs with
  | nil => simp [Python.processVulns] at h
  | cons v rest ih =>
    cases hs : v.severity with
    | none => simp [Python.processVulns, hs] at h
    | some sev =>
      simp only [Python.processVulns, hs, List.mem_cons] at h
      rcases h with h | h
      · exact ⟨sev, by rw [h]⟩
      · exact ih h

/-- Exhaustive description of one `applyUpdates` loop iteration: either
nothing changes, or exactly the kind-selected section is replaced by a
`setConstraint` rewrite of the named entry. -/
lemma applyUpdate1_cases (pj : Npm.PackageJson) (u : Candidate) :
    Npm.applyUpdate1 pj u = pj ∨
    (∃ sec existing, u.type_ = DepKind.production ∧ pj.dependencies = some sec ∧
      sec.lookup u.name = some existing ∧
      Npm.applyUpdate1 pj u =
        ⟨some (Npm.setConstraint sec u.name (Npm.getVersionPrefix existing ++ u.latest)),
         pj.devDependencies, pj.otherFields⟩) ∨
    (∃ sec existing, u.type_ ≠ DepKind.production ∧ pj.devDependencies = some sec ∧
      sec.lookup u.name = some existing ∧
      Npm.applyUpdate1 pj u =
        ⟨pj.dependencies,
         some (Npm.setConstraint sec u.name (Npm.getVersionPrefix existing ++ u.latest)),
         pj.otherFields⟩) := by
  by_cases hp : u.type_ = DepKind.production
  · cases hd : pj.dependencies with
    | none =>
      left
      simp only [Npm.applyUpdate1, if_pos hp, hd]
    | some sec =>
      cases hl : sec.lookup u.name with
      | none =>
        left
        simp only [Npm.applyUpdate1, if_pos hp, hd, hl]
      | some existing =>
        by_cases ht : jsTruthy existing = true
        · right; left
          refine ⟨sec, existing, hp, rfl, hl, ?_⟩
          simp only [Npm.applyUpdate1, if_pos hp, hd, hl, ht]
          simp
        · left
          simp only [Npm.applyUpdate1, if_pos hp, hd, hl]
          rw [if_neg ht]
  · cases hd : pj.devDependencies with
    | none =>
      left
      simp only [Npm.applyUpdate1, if_neg hp, hd]
    | some sec =>
      cases hl : sec.lookup u.name with
      | none =>
        left
        simp only [Npm.applyUpdate1, if_neg hp, hd, hl]
      | some existing =>
        by_cases ht : jsTruthy existing = true
        · right; right
          refine ⟨sec, existing, hp, rfl, hl, ?_⟩
          simp only [Npm.applyUpdate1, if_neg hp, hd, hl, ht]
          simp
        · left
          simp only [Npm.applyUpdate1, if_neg hp, hd, hl]
          rw [if_neg ht]

lemma applyUpdate1_otherFields (pj : Npm.PackageJson) (u : Candidate) :
    (Npm.applyUpdate1 pj u).otherFields = pj.otherFields := by
  rcases applyUpdate1_cases pj u with h | ⟨s, e, -, -, -, h⟩ | ⟨s, e, -, -, -, h⟩ <;>
    rw [h]

lemma applyUpdate1_keys_dep (pj : Npm.PackageJson) (u : Candidate) :
    (Npm.applyUpdate1 pj u).dependencies.map (List.map Prod.fst)
      = pj.dependencies.map (List.map Prod.fst) := by
  rcases applyUpdate1_cases pj u with h | ⟨s, e, -, hd, -, h⟩ | ⟨s, e, -, -, -, h⟩
  · rw [h]
  · rw [h, hd]
    simp [setConstraint_keys]
  · rw [h]

lemma applyUpdate1_keys_dev (pj : Npm.PackageJson) (u : Candidate) :
    (Npm.applyUpdate1 pj u).devDependencies.map (List.map Prod.fst)
      = pj.devDependencies.map (List.map Prod.fst) := by
  rcases applyUpdate1_cases pj u with h | ⟨s, e, -, -, -, h⟩ | ⟨s, e, -, hd, -, h⟩
  · rw [h]
  · rw [h]
  · rw [h, hd]
    simp [setConstraint_keys]

lemma applyUpdate1_lookup_dep (pj : Npm.PackageJson) (u : Candidate) (n : String)
    (hn : u.type_ = DepKind.production → u.name ≠ n) :
    (Npm.applyUpdate1 pj u).dependencies.bind (fun sec => sec.lookup n)
      = pj.dependencies.bind (fun sec => sec.lookup n) := by
  rcases applyUpdate1_cases pj u with h | ⟨s, e, hp, hd, -, h⟩ | ⟨s, e, -, -, -, h⟩
  · rw [h]
  · rw [h, hd]
    have hstep := lookup_setConstraint_ne s u.name
      (Npm.getVersionPrefix e ++ u.latest) n (fun e' => hn hp e'.symm)
    simpa using hstep
  · rw [h]

lemma applyUpdate1_lookup_dev (pj : Npm.PackageJson) (u : Candidate) (n : String)
    (hn : u.type_ = DepKind.development → u.name ≠ n) :
    (Npm.applyUpdate1 pj u).devDependencies.bind (fun sec => sec.lookup n)
      = pj.devDependencies.bind (fun sec => sec.lookup n) := by
  rcases applyUpdate1_cases pj u with h | ⟨s, e, -, -, -, h⟩ | ⟨s, e, hp, hd, -, h⟩
  · rw [h]
  · rw [h]
  · rw [h, hd]
    have hdev : u.type_ = DepKind.development := by
      cases htype : u.type_
      · exact absurd htype hp
      · rfl
    have hstep := lookup_setConstraint_ne s u.name
      (Npm.getVersionPrefix e ++ u.latest) n (fun e' => hn hdev e'.symm)
    simpa using hstep

lemma applyUpdate1_absent (pj : Npm.PackageJson) (u : Candidate)
    (h : (if u.type_ = DepKind.production then pj.dependencies
          else pj.devDependencies).bind (fun sec => sec.lookup u.name) = Option.none) :
    Npm.applyUpdate1 pj u = pj := by
  rcases applyUpdate1_cases pj u with hc | ⟨s, e, hp, hd, hl, -⟩ | ⟨s, e, hp, hd, hl, -⟩
  · exact hc
  · rw [if_pos hp, hd] at h
    simp only [Option.some_bind] at h
    rw [hl] at h
    cases h
  · rw [if_neg hp, hd] at h
    simp only [Option.some_bind] at h
    rw [hl] at h
    cases h

/-- C10 (confirmed): `NpmScanner.applyUpdates` only rewrites the
constraint strings of entries named by an update inside that update's
kind-selected section: non-dependency fields are untouched, the key sets
and order of both sections are preserved, any name not targeted by an
update of the matching kind keeps its exact constraint, and an update
naming a package absent from its kind-selected section changes nothing. -/
theorem C10_applyUpdates_frame (updates : List Candidate)
    (packageJson : Npm.PackageJson) :
    ((Npm.applyUpdates updates packageJson).otherFields = packageJson.otherFields) ∧
    ((Npm.applyUpdates updates packageJson).dependencies.map (List.map Prod.fst)
       = packageJson.dependencies.map (List.map Prod.fst)) ∧
    ((Npm.applyUpdates updates packageJson).devDependencies.map (List.map Prod.fst)
       = packageJson.devDependencies.map (List.map Prod.fst)) ∧
    (∀ n, (∀ u ∈ updates, u.type_ = DepKind.production → u.name ≠ n) →
       (Npm.applyUpdates updates packageJson).dependencies.bind (fun sec => sec.lookup n)
         = packageJson.dependencies.bind (fun sec => sec.lookup n)) ∧
    (∀ n, (∀ u ∈ updates, u.type_ = DepKind.development → u.name ≠ n) →
       (Npm.applyUpdates updates packageJson).devDependencies.bind (fun sec => sec.lookup n)
         = packageJson.devDependencies.bind (fun sec => sec.lookup n)) ∧
    ((∀ u ∈ updates,
        (if u.type_ = DepKind.production then packageJson.dependencies
         else packageJson.devDependencies).bind (fun sec => sec.lookup u.name)
          = Option.none) →
      Npm.applyUpdates updates packageJson = packageJson) := by
  induction updates generalizing packageJson with
  | nil => exact ⟨rfl, rfl, rfl, fun _ _ => rfl, fun _ _ => rfl, fun _ => rfl⟩
  | cons u us ih =>
    have hfold : Npm.applyUpdates (u :: us) packageJson
        = Npm.applyUpdates us (Npm.applyUpdate1 packageJson u) := rfl
    rcases ih (Npm.applyUpdate1 packageJson u) with ⟨i1, i2, i3, i4, i5, i6⟩
    refine ⟨?_, ?_, ?_, ?_, ?_, ?_⟩
    · rw [hfold, i1, applyUpdate1_otherFields]
    · rw [hfold, i2, applyUpdate1_keys_dep]
    · rw [hfold, i3, applyUpdate1_keys_dev]
    · intro n hn
      rw [hfold, i4 n (fun v hv => hn v (List.mem_cons_of_mem u hv)),
        applyUpdate1_lookup_dep packageJson u n (hn u (List.mem_cons_self u us))]
    · intro n hn
      rw [hfold, i5 n (fun v hv => hn v (List.mem_cons_of_mem u hv)),
        applyUpdate1_lookup_dev packageJson u n (hn u (List.mem_cons_self u us))]
    · intro habs
      have hu : Npm.applyUpdate1 packageJson u = packageJson :=
        applyUpdate1_absent packageJson u (habs u (List.mem_cons_self u us))
      rw [hu] at i6
      rw [hfold, hu]
      exact i6 (fun v hv => habs v (List.mem_cons_of_mem u hv))

/-- Witness for C10: a concrete two-entry manifest with one applied
update keeps the untouched entry and the non-dependency fields intact. -/
theorem C10_applyUpdates_frame_witness :
    (Npm.applyUpdates [⟨"express", "4.17.1", "^4.17.1", "4.18.2", DepKind.production,
        UpdateType.minor, true, false⟩]
      ⟨some [("express", "^4.17.1"), ("lodash", "~4.17.15")],
       some [("jest", "^29.0.0")], [("name", "demo")]⟩).dependencies.bind
        (fun sec => sec.lookup "lodash")
      = (⟨some [("express", "^4.17.1"), ("lodash", "~4.17.15")],
          some [("jest", "^29.0.0")], [("name", "demo")]⟩ :
            Npm.PackageJson).dependencies.bind (fun sec => sec.lookup "lodash") :=
  ((C10_applyUpdates_frame [⟨"express", "4.17.1", "^4.17.1", "4.18.2", DepKind.production,
        UpdateType.minor, true, false⟩]
      ⟨some [("express", "^4.17.1"), ("lodash", "~4.17.15")],
       some [("jest", "^29.0.0")], [("name", "demo")]⟩).2.2.2.1) "lodash" (by decide)

/-- C7 (amended): the python scanner's `mapSeverity` maps the five
recognised labels per the table, case-insensitively, and defaults every
other label to `moderate` — unless the lowercased label collides with an
own property name of `Object.prototype` (e.g. `constructor`, `__proto__`),
in which case the plain-object lookup returns the truthy inherited
member verbatim, a non-string value outside the taxonomy.  Consequently
every python finding whose upstream label avoids those prototype keys
carries a taxonomy severity.  The npm scanner copies the audit report's
severity string through verbatim, with no mapping at all. -/
theorem C7_severity_normalization :
    Python.mapSeverity "critical" = JsValue.str "critical" ∧
    Python.mapSeverity "high" = JsValue.str "high" ∧
    Python.mapSeverity "medium" = JsValue.str "moderate" ∧
    Python.mapSeverity "moderate" = JsValue.str "moderate" ∧
    Python.mapSeverity "low" = JsValue.str "low" ∧
    Python.mapSeverity "Medium" = JsValue.str "moderate" ∧
    Python.mapSeverity "unrecognized-label" = JsValue.str "moderate" ∧
    (∀ s, jsToLowerCase s ∉ objectProtoProps →
        ∃ t, Python.mapSeverity s = JsValue.str t ∧
          t ∈ ["low", "moderate", "high", "critical"]) ∧
    Python.mapSeverity "constructor" = JsValue.protoMember "constructor" ∧
    Python.mapSeverity "__proto__" = JsValue.protoMember "__proto__" ∧
    (∀ name t, JsValue.protoMember name ≠ JsValue.str t) ∧
    (∀ (deps : List Dep) (httpGet : String → Except JsError Python.PyResponse)
        (findings : List Finding) (fd : Finding),
        Python.getVulnerabilities deps httpGet = .ok findings →
        fd ∈ findings →
        ∃ sev, fd.severity = Python.mapSeverity sev ∧
          (jsToLowerCase sev ∉ objectProtoProps →
            ∃ t, fd.severity = JsValue.str t ∧
              t ∈ ["low", "moderate", "high", "critical"])) := by
  have htax : ∀ s, jsToLowerCase s ∉ objectProtoProps →
      ∃ t, Python.mapSeverity s = JsValue.str t ∧
        t ∈ ["low", "moderate", "high", "critical"] := by
    intro s hs
    simp only [Python.mapSeverity]
    split
    · exact ⟨"critical", rfl, by simp⟩
    split
    · exact ⟨"high", rfl, by simp⟩
    split
    · exact ⟨"moderate", rfl, by simp⟩
    split
    · exact ⟨"moderate", rfl, by simp⟩
    split
    · exact ⟨"low", rfl, by simp⟩
    exact ⟨"moderate", rfl, by simp⟩
  refine ⟨by decide, by decide, by decide, by decide, by decide, by decide,
    by decide, htax, by decide, by decide, ?_, ?_⟩
  · intro name t h
    exact JsValue.noConfusion h
  · intro deps httpGet findings fd hok hmem
    unfold Python.getVulnerabilities at hok
    cases hok
    rcases List.mem_flatMap.mp hmem with ⟨dep, -, hbody⟩
    cases hg : httpGet dep.name with
    | error e =>
      rw [hg] at hbody
      simp at hbody
    | ok response =>
      rw [hg] at hbody
      simp only at hbody
      cases hd : response.data with
      | none =>
        rw [hd] at hbody
        simp at hbody
      | some vulnsOpt =>
        rw [hd] at hbody
        cases vulnsOpt with
        | none => simp at hbody
        | some vulns =>
          simp only at hbody
          rcases processVulns_severity hbody with ⟨sev, hsev⟩
          refine ⟨sev, hsev, ?_⟩
          intro hnp
          rw [hsev]
          exact htax sev hnp

/-- Witness for C7: the non-prototype-key clause applied at the concrete
upstream label `"HIGH"` yields a taxonomy severity. -/
theorem C7_severity_normalization_witness :
    ∃ t, Python.mapSeverity "HIGH" = JsValue.str t ∧
      t ∈ ["low", "moderate", "high", "critical"] :=
  C7_severity_normalization.2.2.2.2.2.2.2.1 "HIGH" (by decide)

/-- Counterexample to C7 as stated: the npm scanner's audit parser copies
an upstream severity label through verbatim — a case-varied `"Medium"`
reaches the findings unmapped and outside the four-level taxonomy — and
the python scanner's lookup of the label `"constructor"` escapes into the
inherited `Object.prototype` member, a non-string value that is not
`moderate`. -/
theorem C7_counterexample :
    (Npm.parseAuditResults
        ⟨some [("lodash",
            ⟨"Medium", some [.adv (some "Prototype Pollution") "https://example"],
             "<4.17.21", true⟩)]⟩).map (fun fd => fd.severity)
      = [JsValue.str "Medium"] ∧
    "Medium" ∉ (["low", "moderate", "high", "critical"] : List String) ∧
    Python.mapSeverity "constructor" = JsValue.protoMember "constructor" ∧
    Python.mapSeverity "constructor" ≠ JsValue.str "moderate" := by
  refine ⟨by decide, by decide, by decide, by decide⟩

/-- C8 (amended): when both the production-only and development-only
filters are supplied, the npm scanner's listing is empty (each filter
independently suppresses its own section); the python scanner, however,
never consults either filter — its listing depends only on the ignore
option, so both filters together still yield the full list. -/
theorem C8_both_filters :
    (∀ (options : ScanOptions)
        (dependencies devDependencies : Option (List (String × String)))
        (installedOf : String → Option String),
        options.dev = true → options.production = true →
        Npm.scan options dependencies devDependencies installedOf = []) ∧
    (∀ (o1 o2 : ScanOptions) (content : String), o1.ignore = o2.ignore →
        Python.scan o1 content = Python.scan o2 content) := by
  constructor
  · intro options deps devDeps installedOf hdev hprod
    unfold Npm.scan
    rw [hdev, hprod]
    cases deps <;> cases devDeps <;> simp
  · intro o1 o2 content hig
    unfold Python.scan
    rw [hig]

/-- Witness for C8: a concrete npm manifest scanned with both filters set
yields the empty list. -/
theorem C8_both_filters_witness :
    Npm.scan ⟨true, true, Option.none⟩ (some [("express", "^4.17.1")])
      (some [("jest", "^29.0.0")]) (fun _ => Option.none) = [] :=
  C8_both_filters.1 ⟨true, true, Option.none⟩ (some [("express", "^4.17.1")])
    (some [("jest", "^29.0.0")]) (fun _ => Option.none) rfl rfl

/-- Counterexample to C8 as stated: the python scanner ignores both
filters, so supplying both does not yield the empty dependency list. -/
theorem C8_counterexample :
    Python.scan ⟨true, true, Option.none⟩ "requests>=2.0.0"
      = [⟨"requests", ">=2.0.0", Option.none, DepKind.production⟩] ∧
    Python.scan ⟨true, true, Option.none⟩ "requests>=2.0.0" ≠ [] := by
  constructor
  · decide
  · decide

/-- Witness for C6: a concrete two-dependency batch whose second lookup
throws still classifies the first. -/
theorem C6_partial_failure_witness :
    check [⟨"express", "^4.17.1", some "4.17.1", DepKind.production⟩,
           ⟨"ghost", "1.0.0", some "1.0.0", DepKind.production⟩]
        (fun n => if n = "ghost" then .error ⟨"Package ghost not found in registry", Option.none⟩
                  else .ok "4.18.2")
      = check [⟨"express", "^4.17.1", some "4.17.1", DepKind.production⟩]
        (fun n => if n = "ghost" then .error ⟨"Package ghost not found in registry", Option.none⟩
                  else .ok "4.18.2") :=
  C6_partial_failure [⟨"express", "^4.17.1", some "4.17.1", DepKind.production⟩] []
    ⟨"ghost", "1.0.0", some "1.0.0", DepKind.production⟩ _
    ⟨"Package ghost not found in registry", Option.none⟩ (by rfl)

end DepCheck
